import Mathlib

/-!
IntelliAsset ITAM front end: audit trail view, audit-chain hook, API and auth
services, forms, and the change ledger behind the audit endpoints.

A shallow embedding of

* `frontend/src/components/assets/AuditTrail.jsx`
* `frontend/src/hooks/useAuditChain.js`
* `frontend/src/services/api.js`
* `frontend/src/services/authService.js`
* `frontend/src/components/auth/AuthContext.jsx`
* `frontend/src/components/assets/EditAssetModal.jsx`
* `frontend/src/components/auth/RegisterForm.jsx`
* `frontend/src/components/dashboard/RecentAuditWidget.jsx`

JavaScript values that travel as JSON are embedded as `JsVal`; the asynchronous
functions are embedded with the outcome of every awaited call given as an
argument, and the effects (requests issued, storage written) returned as data.
The ledger itself (builder, store, verifier) is not among the source files and
is modelled from the specification.
-/

namespace Itam

/-! ## JavaScript values -/

/-- The values the front end inspects. Numbers are embedded as integers
(record counts and chain positions) below 10^21 in absolute value, which
JavaScript prints in full. An object or an array is `obj ref text`: `ref`
names the object (two values are the same object exactly when their `ref` is
the same) and `text` is what `String(value)` gives for it, for example
`[object Object]`. -/
inductive JsVal where
  | undefined
  | null
  | bool (b : Bool)
  | num (n : Int)
  | str (s : String)
  | obj (ref : Nat) (text : String)
  deriving DecidableEq, Repr

/-- JavaScript truthiness, as used by `if (x)`, `!x`, `x ? a : b`, `x && y`
and `x || y`. -/
def JsVal.truthy : JsVal → Bool
  | .undefined => false
  | .null => false
  | .bool b => b
  | .num n => n != 0
  | .str s => s != ""
  | .obj _ _ => true

/-- Truthiness of a value that is either `null` or a string
(`localStorage.getItem`, the `error` state of a hook). -/
def strTruthy : Option String → Bool
  | none => false
  | some s => s != ""

/-! ## `AuditTrail.jsx` -/

/-- One element of `auditData.records`, with the fields the component reads. -/
structure AuditRecord where
  id : String
  chain_index : JsVal
  timestamp : String
  old_value : JsVal
  new_value : JsVal
  changed_by_email : JsVal
  current_hash : String
  previous_hash : Option String
  deriving DecidableEq, Repr

/-- The response of `GET /audit/asset/:id`, as far as the component reads it. -/
structure AuditData where
  total_changes : JsVal
  records : List AuditRecord
  deriving DecidableEq, Repr

/-- The response of `GET /audit/asset/:id/verify`. A field missing from the
response object is `JsVal.undefined`. -/
structure Verification where
  is_valid : JsVal
  total_records : JsVal
  verified_records : JsVal
  broken_at_index : JsVal
  error_message : JsVal
  deriving DecidableEq, Repr

/-- What `useAuditChain` returns to the component (without `refresh`).
`none` stands for `null`. -/
structure AuditChainState where
  auditData : Option AuditData
  verification : Option Verification
  loading : Bool
  error : Option String
  deriving DecidableEq, Repr

/-- Optional chaining: `verification?.is_valid`. -/
def isValidOf (v : Option Verification) : JsVal :=
  match v with
  | none => .undefined
  | some x => x.is_valid

/-- Optional chaining: `verification?.broken_at_index`. -/
def brokenAtOf (v : Option Verification) : JsVal :=
  match v with
  | none => .undefined
  | some x => x.broken_at_index

/-- Optional chaining: `verification?.error_message`. -/
def errorMessageOf (v : Option Verification) : JsVal :=
  match v with
  | none => .undefined
  | some x => x.error_message

/-- Optional chaining: `verification?.total_records`. -/
def totalRecordsOf (v : Option Verification) : JsVal :=
  match v with
  | none => .undefined
  | some x => x.total_records

/-- Optional chaining: `verification?.verified_records`. -/
def verifiedRecordsOf (v : Option Verification) : JsVal :=
  match v with
  | none => .undefined
  | some x => x.verified_records

/-- Heading shown when `verification?.is_valid` is truthy (AuditTrail.jsx:58). -/
def verifiedHeading : String := "✓ CHAIN VERIFIED - Integrity Intact"

/-- Heading shown when `verification?.is_valid` is falsy (AuditTrail.jsx:59). -/
def tamperingHeading : String := "⚠️ TAMPERING DETECTED - Chain Compromised!"

/-- The `isTamperedRecord` constant of the `records.map` callback
(AuditTrail.jsx:105-106): `!verification?.is_valid && index === verification?.broken_at_index`.
The strict equality holds only when `broken_at_index` is the number `index`. -/
def isTamperedRecord (verification : Option Verification) (index : Nat) : Bool :=
  !(isValidOf verification).truthy && decide (brokenAtOf verification = .num (index : Int))

/-- The UTF-16 code units of a string, which is what a JavaScript string is
made of: one unit for a character of the basic plane, a surrogate pair for any
other. -/
def utf16Units (s : String) : List Nat :=
  s.toList.flatMap (fun c =>
    if c.val.toNat < 0x10000 then [c.val.toNat]
    else [0xD800 + (c.val.toNat - 0x10000) / 0x400, 0xDC00 + (c.val.toNat - 0x10000) % 0x400])

/-- The call `text.substring(0, 16)`: the first 16 code units. -/
def substring16 (text : String) : List Nat :=
  (utf16Units text).take 16

/-- One rendered card of the timeline: the record it shows, whether it
carries the "TAMPERED RECORD" label and red styling, and the code units shown
of its hash and of the hash it links to. -/
structure RecordCard where
  record : AuditRecord
  tampered : Bool
  hashShown : List Nat
  linkShown : Option (List Nat)
  deriving DecidableEq, Repr

/-- The body of the `records.map((record, index) => ...)` callback. -/
def renderRecord (verification : Option Verification) (record : AuditRecord) (index : Nat) :
    RecordCard :=
  { record := record
    tampered := isTamperedRecord verification index
    hashShown := substring16 record.current_hash
    linkShown :=
      match record.previous_hash with
      | none => none
      | some h => if h != "" then some (substring16 h) else none }

/-- The timeline: `auditData.records.map((record, index) => ...)`. -/
def timeline (verification : Option Verification) (records : List AuditRecord) :
    List RecordCard :=
  (records.enum).map (fun p => renderRecord verification p.2 p.1)

/-- The red "Security Alert" box (AuditTrail.jsx:72-91). -/
structure SecurityAlert where
  brokenAt : JsVal
  errorMessage : JsVal
  deriving DecidableEq, Repr

/-- The four things `AuditTrail` can return. -/
inductive View where
  | loadingView
  | errorView (message : String)
  | noAuditTrail
  | trail (heading : String) (totalRecords verifiedRecords : JsVal)
      (alert : Option SecurityAlert) (totalChanges : JsVal) (cards : List RecordCard)
  deriving DecidableEq, Repr

/-- The component `AuditTrail` as a function of the hook state
(AuditTrail.jsx:5-182). -/
def AuditTrail (s : AuditChainState) : View :=
  if s.loading then .loadingView
  else if strTruthy s.error then .errorView (s.error.getD "")
  else
    match s.auditData with
    | none => .noAuditTrail
    | some d =>
      if d.total_changes = .num 0 then .noAuditTrail
      else
        .trail
          (if (isValidOf s.verification).truthy then verifiedHeading else tamperingHeading)
          (totalRecordsOf s.verification)
          (verifiedRecordsOf s.verification)
          (if !(isValidOf s.verification).truthy then
             some { brokenAt := brokenAtOf s.verification
                    errorMessage := errorMessageOf s.verification }
           else none)
          d.total_changes
          (timeline s.verification d.records)

/-- The view carries the "CHAIN VERIFIED" heading. -/
def View.showsVerified : View → Bool
  | .trail h _ _ _ _ _ => h == verifiedHeading
  | _ => false

/-- The view carries the "TAMPERING DETECTED" heading. -/
def View.showsTampering : View → Bool
  | .trail h _ _ _ _ _ => h == tamperingHeading
  | _ => false

/-- The records a view displays, in display order. -/
def View.displayed : View → List AuditRecord
  | .trail _ _ _ _ _ cards => cards.map (fun c => c.record)
  | _ => []

/-- The hash chain link between neighbours of a list of records: every record
at position `i > 0` names the `current_hash` of the record at position `i - 1`
as its `previous_hash`. -/
def HashChained (records : List AuditRecord) : Prop :=
  ∀ i : Nat, 0 < i → i < records.length →
    ∃ a b, records[i - 1]? = some a ∧ records[i]? = some b ∧
      b.previous_hash = some a.current_hash

/-- The state the hook starts in (useAuditChain.js:5-8). -/
def AuditChainState.initial : AuditChainState :=
  { auditData := none, verification := none, loading := false, error := none }

/-! ## `useAuditChain.js` -/

/-- String conversion of a value, as done by a template literal, by
`new Error(value)` and by `localStorage.setItem(key, value)`. A number is
printed in full, as JavaScript does for integers below 10^21 in absolute
value. -/
def jsToString : JsVal → String
  | .undefined => "undefined"
  | .null => "null"
  | .bool true => "true"
  | .bool false => "false"
  | .num n => toString n
  | .str s => s
  | .obj _ text => text

/-- The path `apiService.getAuditChain(assetId)` requests (api.js:189-191). -/
def getAuditChainPath (assetId : JsVal) : String :=
  "/audit/asset/" ++ jsToString assetId

/-- The path `apiService.verifyAuditChain(assetId)` requests (api.js:193-195). -/
def verifyAuditChainPath (assetId : JsVal) : String :=
  "/audit/asset/" ++ jsToString assetId ++ "/verify"

/-- One call of `fetchAuditChain`: the hook state it leaves and the paths it
handed to `apiService.request`, in call order. -/
structure FetchRun where
  state : AuditChainState
  requests : List String
  deriving DecidableEq, Repr

/-- The function `fetchAuditChain` of the hook (useAuditChain.js:10-30).
`auditResult` and `verifyResult` are the outcomes of the two promises given to
`Promise.all` (`Except.error` carries `err.message`); `verifyRejectsFirst` says
which rejection `Promise.all` reports when both reject. -/
def fetchAuditChain (assetId : JsVal)
    (auditResult : Except (Option String) (Option AuditData))
    (verifyResult : Except (Option String) (Option Verification))
    (verifyRejectsFirst : Bool) (s : AuditChainState) : FetchRun :=
  if !assetId.truthy then { state := s, requests := [] }
  else
    let s1 : AuditChainState := { s with loading := true, error := none }
    let requests := [getAuditChainPath assetId, verifyAuditChainPath assetId]
    match auditResult, verifyResult with
    | .ok auditResponse, .ok verifyResponse =>
      { state := { s1 with auditData := auditResponse, verification := verifyResponse,
                           loading := false }
        requests := requests }
    | .error e, .ok _ => { state := { s1 with error := e, loading := false }, requests := requests }
    | .ok _, .error e => { state := { s1 with error := e, loading := false }, requests := requests }
    | .error e1, .error e2 =>
      { state := { s1 with error := if verifyRejectsFirst then e2 else e1, loading := false }
        requests := requests }

/-! ## `localStorage` -/

/-- The browser store: string keys, string values, one entry per key. -/
abbrev LocalStorage := List (String × String)

/-- Model of `localStorage.getItem(key)`; `none` is `null`. -/
def getItem (ls : LocalStorage) (key : String) : Option String :=
  ls.lookup key

/-- Model of `localStorage.removeItem(key)`. -/
def removeItem (ls : LocalStorage) (key : String) : LocalStorage :=
  ls.filter (fun p => p.1 != key)

/-- Model of `localStorage.setItem(key, value)`; the value has already been
converted to a string. -/
def setItem (ls : LocalStorage) (key value : String) : LocalStorage :=
  (key, value) :: removeItem ls key

/-! ## HTTP responses -/

/-- The properties of a parsed JSON body other than `null` that the two
services read; a property that is absent is `undefined` (as every one of them
is for a body that is a number, a string, a boolean or an array). -/
structure JsonBody where
  detail : JsVal
  message : JsVal
  token : JsVal
  access_token : JsVal
  refresh_token : JsVal
  deriving DecidableEq, Repr

/-- The empty object, the fallback when `response.json()` rejects (api.js:60). -/
def emptyBody : JsonBody :=
  { detail := .undefined, message := .undefined, token := .undefined,
    access_token := .undefined, refresh_token := .undefined }

/-- What `fetch` resolves to. `json` is the outcome of `response.json()`:
the parsed body, with `none` for a body that is the JSON value `null`, or the
message of the parse error. -/
structure Response where
  status : Nat
  ok : Bool
  statusText : String
  json : Except String (Option JsonBody)

/-- The message of the `TypeError` raised by reading a property of `null`, as
V8 words it. -/
def nullReadMessage (property : String) : String :=
  "Cannot read properties of null (reading \x27" ++ property ++ "\x27)"

/-- The operator `a || b`. -/
def jsOr (a b : JsVal) : JsVal :=
  if a.truthy then a else b

/-! ## `authService.js` -/

/-- The constant `this.TOKEN_KEY` (authService.js:5). -/
def TOKEN_KEY : String := "token"

/-- The key of the refresh token, written as a literal in authService.js. -/
def REFRESH_KEY : String := "refreshToken"

/-- Lines 22-29 of `AuthService.request`, from the outcome of its `fetch`:
the body is parsed first, then a response that is not ok becomes an error;
reading `data.message` of a body that is `null` raises a `TypeError`. -/
def AuthService.request (fetched : Except String Response) : Except String (Option JsonBody) :=
  match fetched with
  | .error e => .error e
  | .ok response =>
    match response.json with
    | .error e => .error e
    | .ok data =>
      if !response.ok then
        match data with
        | none => .error (nullReadMessage "message")
        | some d =>
          .error (jsToString (jsOr d.message (jsOr d.detail (.str "Request failed"))))
      else .ok data

/-- Lines 43-46 and 58-61: both tokens are stored when `response.token` is truthy. -/
def storeTokens (response : JsonBody) (ls : LocalStorage) : LocalStorage :=
  if response.token.truthy then
    setItem (setItem ls TOKEN_KEY (jsToString response.token))
      REFRESH_KEY (jsToString response.refresh_token)
  else ls

/-- The method `login` (authService.js:36-49): the storage it leaves and what
its promise settles to. Reading `response.token` of a response that is `null`
raises a `TypeError` before anything is stored. -/
def AuthService.login (fetched : Except String Response) (ls : LocalStorage) :
    LocalStorage × Except String JsonBody :=
  match AuthService.request fetched with
  | .error e => (ls, .error e)
  | .ok none => (ls, .error (nullReadMessage "token"))
  | .ok (some response) => (storeTokens response ls, .ok response)

/-- The method `register` (authService.js:51-64). -/
def AuthService.register (fetched : Except String Response) (ls : LocalStorage) :
    LocalStorage × Except String JsonBody :=
  match AuthService.request fetched with
  | .error e => (ls, .error e)
  | .ok none => (ls, .error (nullReadMessage "token"))
  | .ok (some response) => (storeTokens response ls, .ok response)

/-- The method `logout` (authService.js:66-76): `try` awaits the request,
`finally` removes both entries, then the outcome of `try` is passed on. -/
def AuthService.logout (fetched : Except String Response) (ls : LocalStorage) :
    LocalStorage × Except String Unit :=
  let attempt := AuthService.request fetched
  let cleared := removeItem (removeItem ls TOKEN_KEY) REFRESH_KEY
  match attempt with
  | .error e => (cleared, .error e)
  | .ok _ => (cleared, .ok ())

/-- The method `getToken` (authService.js:122-124). -/
def AuthService.getToken (ls : LocalStorage) : Option String :=
  getItem ls TOKEN_KEY

/-- The method `isAuthenticated` (authService.js:126-128): `!!this.getToken()`. -/
def AuthService.isAuthenticated (ls : LocalStorage) : Bool :=
  strTruthy (AuthService.getToken ls)

/-- The `try` block of `refreshToken` (authService.js:96-114) up to the first
write to the storage. For a body that is `null`, reading `data.detail` (response
not ok) or `data.access_token` (response ok) raises a `TypeError` inside the
block. -/
def refreshAttempt (fetched : Except String Response) : Except String JsonBody :=
  match fetched with
  | .error e => .error e
  | .ok response =>
    match response.json with
    | .error e => .error e
    | .ok none =>
      if !response.ok then .error (nullReadMessage "detail")
      else .error (nullReadMessage "access_token")
    | .ok (some data) =>
      if !response.ok then
        .error (jsToString (jsOr data.detail (.str "Token refresh failed")))
      else .ok data

/-- One call of `refreshToken`: what its promise settles to, the storage at
that moment, and whether `this.logout()` was called. The call of `logout` in
the `catch` block is not awaited: `logout` runs up to its own `await` of the
request (which writes nothing), then `refreshToken` throws. -/
structure RefreshRun where
  result : Except String JsonBody
  storage : LocalStorage
  logoutStarted : Bool

/-- The method `refreshToken` (authService.js:89-120). -/
def AuthService.refreshToken (fetched : Except String Response) (ls : LocalStorage) :
    RefreshRun :=
  let refreshToken := getItem ls REFRESH_KEY
  if !strTruthy refreshToken then
    { result := .error "No refresh token available", storage := ls, logoutStarted := false }
  else
    match refreshAttempt fetched with
    | .ok data =>
      { result := .ok data
        storage := setItem (setItem ls TOKEN_KEY (jsToString data.access_token))
          REFRESH_KEY (jsToString data.refresh_token)
        logoutStarted := false }
    | .error e => { result := .error e, storage := ls, logoutStarted := true }

/-- The storage once the `logout` started by a `refreshToken` call has settled
(`logoutFetched` is the outcome of the fetch of `/logout`); the storage of the
run itself when no `logout` was started. -/
def RefreshRun.afterLogout (run : RefreshRun) (logoutFetched : Except String Response) :
    LocalStorage :=
  if run.logoutStarted then (AuthService.logout logoutFetched run.storage).1 else run.storage

/-! ## `api.js`: one invocation of `ApiService.request` -/

/-- The constant `API_BASE` (api.js:4). -/
def API_BASE : String := "http://localhost:8000/api"

/-- A headers object: property names with their values, one entry per name. -/
abbrev Headers := List (String × String)

/-- The assignment `headers[name] = value`. -/
def assignHeader (h : Headers) (name value : String) : Headers :=
  if h.any (fun p => p.1 == name) then
    h.map (fun p => if p.1 == name then (name, value) else p)
  else h ++ [(name, value)]

/-- The `options` argument of `request`, as far as callers fill it; `none` is
a property that is absent. -/
structure RequestOptions where
  method : Option String
  body : Option String
  headers : Option Headers
  deriving DecidableEq, Repr

/-- One call `fetch(url, config)`. -/
structure FetchCall where
  url : String
  method : Option String
  body : Option String
  headers : Headers
  deriving DecidableEq, Repr

/-- The text a template literal gives for a value read from `localStorage`. -/
def tokenText : Option String → String
  | none => "null"
  | some t => t

/-- The `headers` property of `config` (api.js:15-22). The spread of `options`
comes last, so a `headers` property of `options` replaces the merged object. -/
def configHeaders (token : Option String) (options : RequestOptions) : Headers :=
  match options.headers with
  | some h => h
  | none =>
    ("Content-Type", "application/json") ::
      (if strTruthy token then [("Authorization", "Bearer " ++ tokenText token)] else [])

/-- The guard of api.js:28:
`(response.status === 401 || response.status === 403) && token`. -/
def wantsRefresh (response : Response) (token : Option String) : Bool :=
  (response.status == 401 || response.status == 403) && strTruthy token

/-- The message of line 61 for an error body that is not `null`:
`errorData.detail || errorData.message || "API Error: " + statusText`, made a
string by `new Error`. -/
def errorMessage (errorData : JsonBody) (statusText : String) : String :=
  jsToString (jsOr errorData.detail
    (jsOr errorData.message (.str ("API Error: " ++ statusText))))

/-- Lines 59-64 of `request`: the promise outcome for the final response. For
a response that is not ok, the `catch` of line 60 replaces a body that is not
valid JSON by the empty object; a body that parses to `null` is kept, and
reading `errorData.detail` on line 61 then raises a `TypeError`, which the
`catch` of line 65 rethrows. -/
def settle (response : Response) : Except String (Option JsonBody) :=
  if !response.ok then
    match response.json with
    | .error _ => .error (errorMessage emptyBody response.statusText)
    | .ok none => .error (nullReadMessage "detail")
    | .ok (some errorData) => .error (errorMessage errorData response.statusText)
  else response.json

/-- One invocation of `request`: the `fetch` calls it made in order, whether
it called `authService.refreshToken()`, whether it awaited
`this.refreshPromise`, and what its promise settles to. -/
structure RequestRun where
  fetches : List FetchCall
  refreshCalled : Bool
  awaitedRefresh : Bool
  result : Except String (Option JsonBody)

/-- The method `ApiService.request` (api.js:12-69). Arguments besides `url`
and `options`: `token` is what `authService.getToken()` returns on line 13,
`isRefreshing` the field when line 32 reads it, `first` the outcome of the
fetch of line 25, `refreshed` the value `this.refreshPromise` resolves to,
`newToken` what `getToken()` returns on line 53, `second` the outcome of the
fetch of line 55. -/
def ApiService.request (token : Option String) (isRefreshing : Bool) (url : String)
    (options : RequestOptions) (first : Except String Response) (refreshed : Bool)
    (newToken : Option String) (second : Except String Response) : RequestRun :=
  let headers := configHeaders token options
  let call1 : FetchCall :=
    { url := API_BASE ++ url, method := options.method, body := options.body, headers := headers }
  match first with
  | .error e =>
    { fetches := [call1], refreshCalled := false, awaitedRefresh := false, result := .error e }
  | .ok response =>
    if wantsRefresh response token then
      if refreshed then
        let call2 : FetchCall :=
          { call1 with headers := assignHeader headers "Authorization"
                                    ("Bearer " ++ tokenText newToken) }
        match second with
        | .error e =>
          { fetches := [call1, call2], refreshCalled := !isRefreshing, awaitedRefresh := true
            result := .error e }
        | .ok retried =>
          { fetches := [call1, call2], refreshCalled := !isRefreshing, awaitedRefresh := true
            result := settle retried }
      else
        { fetches := [call1], refreshCalled := !isRefreshing, awaitedRefresh := true
          result := settle response }
    else
      { fetches := [call1], refreshCalled := false, awaitedRefresh := false
        result := settle response }

/-! ## `api.js`: interleaved invocations and the shared refresh

JavaScript runs each stretch of code between two `await`s to completion, so
several invocations of `request` on the one `apiService` object interleave
only at their `await`s. The stretches that read or write `isRefreshing` and
`refreshPromise` are the events below. -/

/-- The fields of `apiService` (api.js:7-10) with a record of the refresh
calls. Promises are named by the number of the `refreshToken()` call that
created them. -/
structure ApiState where
  /-- The field `this.isRefreshing`. -/
  isRefreshing : Bool
  /-- The field `this.refreshPromise`; `none` is `null`. -/
  refreshPromise : Option Nat
  /-- How many times `authService.refreshToken()` has been called. -/
  refreshCalls : Nat
  /-- Calls of `refreshToken()` whose promise has not settled. -/
  inFlight : List Nat
  /-- Settled calls whose `then`/`catch` callback has not run yet, with success. -/
  settled : List (Nat × Bool)
  /-- Resolved refresh promises with their value. -/
  resolved : List (Nat × Bool)
  /-- Invocations that reached line 49, with what they await there. -/
  waiting : List (Nat × Option Nat)
  deriving DecidableEq, Repr

/-- The state set up by the constructor (api.js:7-10). -/
def ApiState.init : ApiState :=
  { isRefreshing := false, refreshPromise := none, refreshCalls := 0
    inFlight := [], settled := [], resolved := [], waiting := [] }

/-- The stretches of code that touch the shared refresh state. -/
inductive ApiEvent where
  /-- Invocation `r` got a 401/403 answer with a token stored: lines 28-49,
  up to `await this.refreshPromise`. -/
  | unauthorized (r : Nat)
  /-- The promise of `refreshToken()` call `p` settles (`ok`: it resolved). -/
  | refreshSettled (p : Nat) (ok : Bool)
  /-- The `then` (lines 35-38) or `catch` (lines 39-45) callback of call `p` runs. -/
  | callback (p : Nat)
  deriving DecidableEq, Repr

/-- One event; `none` when the event cannot happen in this state. -/
def ApiState.step (s : ApiState) : ApiEvent → Option ApiState
  | .unauthorized r =>
    if !s.isRefreshing then
      some { s with isRefreshing := true
                    refreshPromise := some s.refreshCalls
                    refreshCalls := s.refreshCalls + 1
                    inFlight := s.refreshCalls :: s.inFlight
                    waiting := (r, some s.refreshCalls) :: s.waiting }
    else
      some { s with waiting := (r, s.refreshPromise) :: s.waiting }
  | .refreshSettled p ok =>
    if s.inFlight.contains p then
      some { s with inFlight := s.inFlight.erase p, settled := (p, ok) :: s.settled }
    else none
  | .callback p =>
    match s.settled.lookup p with
    | some ok =>
      some { s with isRefreshing := false
                    settled := s.settled.filter (fun q => q.1 != p)
                    resolved := (p, ok) :: s.resolved }
    | none => none

/-- A sequence of events from a state; `none` when one of them cannot happen. -/
def ApiState.run (s : ApiState) : List ApiEvent → Option ApiState
  | [] => some s
  | e :: es =>
    match s.step e with
    | some t => t.run es
    | none => none

/-- The states the single `apiService` object can be in. -/
def ApiState.Reachable (s : ApiState) : Prop :=
  ∃ es : List ApiEvent, ApiState.init.run es = some s

/-- The refresh calls that have not finished: in flight, or settled with the
callback still to run. -/
def ApiState.pending (s : ApiState) : List Nat :=
  s.inFlight ++ s.settled.map (fun q => q.1)

/-- The cards of the timeline a view shows. -/
def View.cards : View → List RecordCard
  | .trail _ _ _ _ _ cards => cards
  | _ => []

/-! ## Concrete inputs -/

/-- First record of a two-record chain. -/
def genesisRecord : AuditRecord :=
  { id := "r0", chain_index := .num 0, timestamp := "2025-01-01T00:00:00Z"
    old_value := .null, new_value := .str "alice@co.com"
    changed_by_email := .str "admin@co.com", current_hash := "aaaa", previous_hash := none }

/-- Second record, whose `previous_hash` is not the hash of the first. -/
def unlinkedRecord : AuditRecord :=
  { id := "r1", chain_index := .num 1, timestamp := "2025-01-02T00:00:00Z"
    old_value := .str "alice@co.com", new_value := .str "bob@co.com"
    changed_by_email := .str "admin@co.com", current_hash := "bbbb", previous_hash := some "zzzz" }

/-- Second record properly linked to the first. -/
def linkedRecord : AuditRecord :=
  { unlinkedRecord with previous_hash := some "aaaa" }

/-- A verify response that reports a valid chain of two records. -/
def validVerdict : Verification :=
  { is_valid := .bool true, total_records := .num 2, verified_records := .num 2
    broken_at_index := .null, error_message := .null }

/-- A verify response that reports a break at record 1. -/
def brokenVerdict : Verification :=
  { is_valid := .bool false, total_records := .num 2, verified_records := .num 1
    broken_at_index := .num 1, error_message := .str "broken link at index 1" }

/-- A hook state after a successful fetch: two records whose link is broken,
and a verify response that says the chain is valid. -/
def forgedState : AuditChainState :=
  { auditData := some { total_changes := .num 2, records := [genesisRecord, unlinkedRecord] }
    verification := some validVerdict, loading := false, error := none }

/-- An audit response that reports no changes. -/
def emptyAudit : AuditData :=
  { total_changes := .num 0, records := [] }

/-- A hook state that holds a fetch error next to a verify response reporting
a break. -/
def erroredState : AuditChainState :=
  { auditData := none, verification := some brokenVerdict, loading := false
    error := some "Network Error" }

/-- The invariant of the shared refresh state: with `isRefreshing` false
no refresh call is unfinished; with `isRefreshing` true exactly one is, and
`refreshPromise` is its promise. -/
def ApiState.Inv (s : ApiState) : Prop :=
  (s.isRefreshing = false → s.inFlight = [] ∧ s.settled = []) ∧
  (s.isRefreshing = true → ∃ p, s.refreshPromise = some p ∧
    ((s.inFlight = [p] ∧ s.settled = []) ∨ (s.inFlight = [] ∧ ∃ ok, s.settled = [(p, ok)])))

/-- Two invocations got a 401 answer one after the other while the refresh
started by the first is still in flight. -/
def twoUnauthorized : ApiState :=
  { isRefreshing := true, refreshPromise := some 0, refreshCalls := 1, inFlight := [0]
    settled := [], resolved := [], waiting := [(2, some 0), (1, some 0)] }

/-- A store that holds an access token and no refresh token. -/
def accessOnlyStore : LocalStorage := [("token", "abc")]

/-- A store that holds both tokens and the cached user. -/
def signedInStore : LocalStorage :=
  [("token", "abc"), ("refreshToken", "def"), ("user", "alice")]

/-- A response with status 401 and a JSON body that carries a `detail`. -/
def unauthorizedResponse : Response :=
  { status := 401, ok := false, statusText := "Unauthorized"
    json := .ok (some { emptyBody with detail := .str "Invalid refresh token" }) }

/-- A successful login response that carries both tokens. -/
def loginResponse : Response :=
  { status := 200, ok := true, statusText := "OK"
    json := .ok (some { emptyBody with token := .str "tok-1", refresh_token := .str "ref-1" }) }

/-- The response the outcome of `request` is computed from (the `response`
variable when line 59 is reached); `none` when a `fetch` rejected. -/
def ApiService.finalResponse (token : Option String) (first : Except String Response)
    (refreshed : Bool) (second : Except String Response) : Option Response :=
  match first with
  | .error _ => none
  | .ok response =>
    if wantsRefresh response token && refreshed then
      match second with
      | .error _ => none
      | .ok retried => some retried
    else some response

/-- A hook state after a successful fetch of a two-record chain whose verify
request resolved with `null`. -/
def unverifiedState : AuditChainState :=
  { auditData := some { total_changes := .num 2, records := [genesisRecord, linkedRecord] }
    verification := none, loading := false, error := none }

/-- An answer 204 No Content: the response is ok and its body is not JSON. -/
def noContentResponse : Response :=
  { status := 204, ok := true, statusText := "No Content"
    json := .error "Unexpected end of JSON input" }

/-- The options of a `PUT` with a body and no `headers` property. -/
def putOptions : RequestOptions :=
  { method := some "PUT", body := some "status=Retired", headers := none }

/-- A successful answer of the refresh endpoint. -/
def refreshedResponse : Response :=
  { status := 200, ok := true, statusText := "OK"
    json := .ok (some { emptyBody with access_token := .str "tok-2", refresh_token := .str "ref-2" }) }

/-! ## `AuthContext.jsx` -/

/-- The three state variables of `AuthProvider` (AuthContext.jsx:15-17);
`user` is `null` or the data of the signed-in user. -/
structure AuthState where
  user : Option JsonBody
  isLoading : Bool
  isAuthenticated : Bool
  deriving DecidableEq, Repr

/-- One call of `checkAuthStatus`: the provider state and the storage it
leaves, and what its promise settles to. -/
structure AuthRun where
  state : AuthState
  storage : LocalStorage
  result : Except String Unit

/-- The method `verifyToken` (authService.js:78-80). -/
def AuthService.verifyToken (fetched : Except String Response) :
    Except String (Option JsonBody) :=
  AuthService.request fetched

/-- The function `checkAuthStatus` (AuthContext.jsx:23-40). `verifyFetched`
and `logoutFetched` are the outcomes of the fetches of `/verify` and
`/logout`. In the `catch` block `await authService.logout()` comes first: when
it rejects, the two setters after it are skipped, `finally` still runs, and
the promise rejects. -/
def checkAuthStatus (verifyFetched logoutFetched : Except String Response)
    (ls : LocalStorage) (s : AuthState) : AuthRun :=
  let token := AuthService.getToken ls
  if strTruthy token then
    match AuthService.verifyToken verifyFetched with
    | .ok userData =>
      { state := { user := userData, isAuthenticated := true, isLoading := false }
        storage := ls, result := .ok () }
    | .error _ =>
      match AuthService.logout logoutFetched ls with
      | (cleared, .ok _) =>
        { state := { user := none, isAuthenticated := false, isLoading := false }
          storage := cleared, result := .ok () }
      | (cleared, .error e) =>
        { state := { s with isLoading := false }, storage := cleared, result := .error e }
  else
    { state := { s with isLoading := false }, storage := ls, result := .ok () }

/-- The data of a signed-in user. -/
def aliceData : JsonBody :=
  { emptyBody with message := .str "alice@co.com" }

/-- A provider state with a user signed in. -/
def signedInState : AuthState :=
  { user := some aliceData, isLoading := false, isAuthenticated := true }

/-! ## `EditAssetModal.jsx` -/

/-- A flat object: property names with scalar values, one entry per name. -/
abbrev JsObject := List (String × JsVal)

/-- Property read `o[key]`; `undefined` when the property is absent. -/
def getProp (o : JsObject) (key : String) : JsVal :=
  (o.lookup key).getD .undefined

/-- Property write `o[key] = value`. -/
def setProp (o : JsObject) (key : String) (value : JsVal) : JsObject :=
  if o.any (fun p => p.1 == key) then
    o.map (fun p => if p.1 == key then (key, value) else p)
  else o ++ [(key, value)]

/-- The keys of `formData` with the fallback each gets in the pre-fill
(EditAssetModal.jsx:30-47), in the order of the object literal. -/
def formDefaults : JsObject :=
  [("name", .str ""), ("type", .str ""), ("category", .str "Hardware"),
   ("status", .str "Active"), ("assignedTo", .str ""), ("department", .str ""),
   ("location", .str ""), ("purchaseDate", .str ""), ("cost", .str ""),
   ("serialNumber", .str ""), ("vendor", .str ""), ("warranty", .str ""),
   ("lifecycle", .str "Procurement"), ("complianceStatus", .str "Compliant"),
   ("maintenanceSchedule", .str ""), ("notes", .str "")]

/-- The pre-filled form: `key: asset[key] || fallback` for every key
(EditAssetModal.jsx:28-49). -/
def prefill (asset : JsObject) : JsObject :=
  formDefaults.map (fun p => (p.1, jsOr (getProp asset p.1) p.2))

/-- The characters `String.prototype.trim` removes and `\s` matches: white
space and line terminators. -/
def isJsSpace (c : Char) : Bool :=
  c.val = 0x09 || c.val = 0x0A || c.val = 0x0B || c.val = 0x0C || c.val = 0x0D ||
  c.val = 0x20 || c.val = 0xA0 || c.val = 0x1680 || (0x2000 ≤ c.val && c.val ≤ 0x200A) ||
  c.val = 0x2028 || c.val = 0x2029 || c.val = 0x202F || c.val = 0x205F || c.val = 0x3000 ||
  c.val = 0xFEFF

/-- Truthiness of `value.trim()` for a form value: a string with a character
that is not white space. -/
def trimmedTruthy : JsVal → Bool
  | .str s => s.toList.any (fun c => !isJsSpace c)
  | _ => false

/-- The function `validate` (EditAssetModal.jsx:66-81); `true` when
`newErrors` has no key. `costIsNaN v` stands for `isNaN(parseFloat(v))`. -/
def EditAssetModal.validate (costIsNaN : JsVal → Bool) (formData : JsObject) : Bool :=
  let nameError := !trimmedTruthy (getProp formData "name")
  let typeError := !trimmedTruthy (getProp formData "type")
  let costError := (getProp formData "cost").truthy && costIsNaN (getProp formData "cost")
  !(nameError || typeError || costError)

/-- The loop of lines 93-98: for each key of `formData`, in order, the entry
is copied to `updates` when `formData[key] !== asset[key]`. -/
def changedFields (formData asset : JsObject) : JsObject :=
  formData.filter (fun p => p.2 != getProp asset p.1)

/-- The function `handleSubmit` (EditAssetModal.jsx:83-107): the arguments
given to `onSubmit`, or `none` when validation fails and nothing is
submitted. `parseFloat` stands for the builtin. -/
def EditAssetModal.handleSubmit (costIsNaN : JsVal → Bool) (parseFloat : JsVal → JsVal)
    (formData asset : JsObject) : Option (JsVal × JsObject) :=
  if !EditAssetModal.validate costIsNaN formData then none
  else
    let updates := changedFields formData asset
    let updates :=
      if (getProp updates "cost").truthy then
        setProp updates "cost" (parseFloat (getProp updates "cost"))
      else updates
    some (getProp asset "id", updates)

/-- An asset as `AddAssetModal` creates it when the cost field is left empty
(AddAssetModal.jsx:50-57: `cost` becomes 0, no `notes` property), without
its `tags` array. -/
def addedAsset : JsObject :=
  [("id", .str "a1"), ("name", .str "Laptop"), ("type", .str "Notebook"),
   ("category", .str "Hardware"), ("assignedTo", .str ""), ("department", .str ""),
   ("location", .str ""), ("cost", .num 0), ("serialNumber", .str ""), ("vendor", .str ""),
   ("warranty", .str ""), ("status", .str "Active"), ("lifecycle", .str "Procurement"),
   ("purchaseDate", .str "2025-01-01"), ("complianceStatus", .str "Compliant"),
   ("maintenanceSchedule", .str "2026-01-01")]

/-! ## `RegisterForm.jsx` -/

/-- Regular expressions over characters, as far as the pattern of
`validateForm` needs them. -/
inductive Regex where
  | none
  | empty
  | cls (p : Char → Bool)
  | seq (a b : Regex)
  | alt (a b : Regex)
  | star (a : Regex)

/-- The pattern `a+`. -/
def Regex.plus (a : Regex) : Regex := .seq a (.star a)

/-- Whether the pattern matches the empty string. -/
def Regex.nullable : Regex → Bool
  | .none => false
  | .empty => true
  | .cls _ => false
  | .seq a b => a.nullable && b.nullable
  | .alt a b => a.nullable || b.nullable
  | .star _ => true

/-- The pattern for what may follow after the character `c` was read. -/
def Regex.deriv (c : Char) : Regex → Regex
  | .none => .none
  | .empty => .none
  | .cls p => if p c then .empty else .none
  | .seq a b => if a.nullable then .alt (.seq (a.deriv c) b) (b.deriv c) else .seq (a.deriv c) b
  | .alt a b => .alt (a.deriv c) (b.deriv c)
  | .star a => .seq (a.deriv c) (.star a)

/-- Whether the pattern matches the whole of a list of characters. -/
def Regex.matchesAll (r : Regex) : List Char → Bool
  | [] => r.nullable
  | c :: cs => (r.deriv c).matchesAll cs

/-- The method `RegExp.prototype.test` for a pattern without anchors: some
substring of the text matches. -/
def Regex.test (r : Regex) (text : String) : Bool :=
  (Regex.seq (.star (.cls fun _ => true)) (.seq r (.star (.cls fun _ => true)))).matchesAll
    text.toList

/-- The class `\S`. A character outside the basic plane is two code units in
JavaScript, neither of them white space. -/
def nonSpace : Regex := .cls (fun c => !isJsSpace c)

/-- The pattern `/\S+@\S+\.\S+/` of RegisterForm.jsx:39. -/
def emailPattern : Regex :=
  .seq nonSpace.plus (.seq (.cls (fun c => c == '@'))
    (.seq nonSpace.plus (.seq (.cls (fun c => c == '.')) nonSpace.plus)))

/-- The property `length` of a string: its number of UTF-16 code units. -/
def jsLength (s : String) : Nat :=
  (s.toList.map (fun c => if c.val < 0x10000 then 1 else 2)).sum

/-- The form state of `RegisterForm` (RegisterForm.jsx:10-17); every field is
the text of an input. -/
structure RegisterFormData where
  name : String
  email : String
  password : String
  confirmPassword : String
  department : String
  role : String
  deriving DecidableEq, Repr

/-- The object `newErrors` that `validateForm` builds (RegisterForm.jsx:33-49),
as the list of its assignments in program order. -/
def RegisterForm.newErrors (f : RegisterFormData) : List (String × String) :=
  (if f.name = "" then [("name", "Name is required")] else []) ++
  (if f.email = "" then [("email", "Email is required")] else []) ++
  (if f.password = "" then [("password", "Password is required")] else []) ++
  (if f.confirmPassword = "" then [("confirmPassword", "Please confirm password")] else []) ++
  (if f.email ≠ "" ∧ emailPattern.test f.email = false then [("email", "Email is invalid")]
   else []) ++
  (if f.password ≠ "" ∧ jsLength f.password < 6 then
     [("password", "Password must be at least 6 characters")] else []) ++
  (if f.password ≠ f.confirmPassword then [("confirmPassword", "Passwords do not match")]
   else [])

/-- The function `validateForm` (RegisterForm.jsx:32-53):
`Object.keys(newErrors).length === 0`. An object has no key exactly when no
assignment was made. -/
def RegisterForm.validateForm (f : RegisterFormData) : Bool :=
  (RegisterForm.newErrors f).isEmpty

/-- The argument `handleSubmit` gives to `register` (RegisterForm.jsx:60-66). -/
structure RegisterPayload where
  name : String
  email : String
  password : String
  department : String
  role : String
  deriving DecidableEq, Repr

/-- The function `handleSubmit` of `RegisterForm` (RegisterForm.jsx:55-72) up
to its call of `register`: the argument of the call, or `none` when it returns
without calling. -/
def RegisterForm.handleSubmit (f : RegisterFormData) : Option RegisterPayload :=
  if !RegisterForm.validateForm f then none
  else some { name := f.name, email := f.email, password := f.password
              department := f.department, role := f.role }

/-! ## The change ledger behind the audit endpoints

The front end only calls the ledger through `getAuditChain`,
`verifyAuditChain` and `getRecentAudits`; the builder, the store and the
verifier themselves are not among the source files and are modelled from the
specification. -/

/-- Modelled from the spec: the AuditRecord of section 3 (the implementation of
the ledger is missing from the sources). Instants and positions are natural
numbers; a nullable value is an `Option`. -/
structure LedgerRecord where
  id : String
  entityId : String
  chainIndex : Nat
  timestamp : Nat
  fieldChanged : String
  oldValue : Option String
  newValue : Option String
  changedByUserId : String
  changedByEmail : String
  previousHash : String
  currentHash : String
  deriving DecidableEq, Repr

/-- Modelled from the spec: what the digest is computed from, "all record
fields except currentHash" (section 4.1 step 3). Section 3 names eight of
these fields as the ones `currentHash` is a function of; whether a digest
reads `id` and `changedByEmail` as well is up to the digest of the scheme. -/
structure HashInput where
  id : String
  entityId : String
  chainIndex : Nat
  timestamp : Nat
  fieldChanged : String
  oldValue : Option String
  newValue : Option String
  changedByUserId : String
  changedByEmail : String
  previousHash : String
  deriving DecidableEq, Repr

/-- Modelled from the spec: the content of a record that enters its hash
(section 4.1 step 3, section 4.3 step 2). -/
def LedgerRecord.hashInput (r : LedgerRecord) : HashInput :=
  { id := r.id, entityId := r.entityId, chainIndex := r.chainIndex, timestamp := r.timestamp
    fieldChanged := r.fieldChanged, oldValue := r.oldValue, newValue := r.newValue
    changedByUserId := r.changedByUserId, changedByEmail := r.changedByEmail
    previousHash := r.previousHash }

/-- Modelled from the spec: the digest function and the genesis sentinel, both
of which the specification leaves to the implementation (sections 3 and 9). -/
structure HashScheme where
  digest : HashInput → String
  genesis : String

/-- Modelled from the spec: the input of the Chain Builder (section 4.1)
besides the chain tail: the entity, the change, the actor, and the fresh id
and the current time that the builder assigns. -/
structure ChangeEvent where
  id : String
  entityId : String
  fieldChanged : String
  oldValue : Option String
  newValue : Option String
  changedByUserId : String
  changedByEmail : String
  timestamp : Nat
  deriving DecidableEq, Repr

/-- Modelled from the spec: the Chain Builder of section 4.1. The position is
the position of the tail plus one, or 0; the previous hash is the current hash
of the tail, or the genesis sentinel; the current hash is the digest of the
content with that previous hash. -/
def build (S : HashScheme) (ev : ChangeEvent) (tail : Option LedgerRecord) : LedgerRecord :=
  let chainIndex :=
    match tail with
    | some t => t.chainIndex + 1
    | none => 0
  let previousHash :=
    match tail with
    | some t => t.currentHash
    | none => S.genesis
  { id := ev.id, entityId := ev.entityId, chainIndex := chainIndex, timestamp := ev.timestamp
    fieldChanged := ev.fieldChanged, oldValue := ev.oldValue, newValue := ev.newValue
    changedByUserId := ev.changedByUserId, changedByEmail := ev.changedByEmail
    previousHash := previousHash
    currentHash := S.digest
      { id := ev.id, entityId := ev.entityId, chainIndex := chainIndex
        timestamp := ev.timestamp, fieldChanged := ev.fieldChanged, oldValue := ev.oldValue
        newValue := ev.newValue, changedByUserId := ev.changedByUserId
        changedByEmail := ev.changedByEmail, previousHash := previousHash } }

/-- Modelled from the spec: the Chain Record Store of section 4.2, the records
it has persisted, in the order they were appended. -/
structure Store where
  records : List LedgerRecord
  deriving DecidableEq, Repr

/-- Modelled from the spec: the errors of the store (section 7). -/
inductive StoreError where
  | conflictError
  deriving DecidableEq, Repr

/-- The store with no record. -/
def Store.empty : Store := { records := [] }

/-- The order of a chain: ascending `chainIndex`. -/
def byIndex (a b : LedgerRecord) : Prop := a.chainIndex ≤ b.chainIndex

/-- The order of recency: descending `timestamp`. -/
def recentFirst (a b : LedgerRecord) : Prop := b.timestamp ≤ a.timestamp

instance byIndexDecidable : DecidableRel byIndex :=
  fun a b => inferInstanceAs (Decidable (a.chainIndex ≤ b.chainIndex))

instance recentFirstDecidable : DecidableRel recentFirst :=
  fun a b => inferInstanceAs (Decidable (b.timestamp ≤ a.timestamp))

instance byIndexTotal : IsTotal LedgerRecord byIndex :=
  ⟨fun a b => Nat.le_total a.chainIndex b.chainIndex⟩

instance byIndexTrans : IsTrans LedgerRecord byIndex :=
  ⟨fun _ _ _ h1 h2 => Nat.le_trans h1 h2⟩

instance recentFirstTotal : IsTotal LedgerRecord recentFirst :=
  ⟨fun a b => Nat.le_total b.timestamp a.timestamp⟩

instance recentFirstTrans : IsTrans LedgerRecord recentFirst :=
  ⟨fun _ _ _ h1 h2 => Nat.le_trans h2 h1⟩

/-- Modelled from the spec: `append(record)` of section 4.2: ConflictError
when a record with the same entityId and chainIndex exists, otherwise the
record is persisted. -/
def Store.append (store : Store) (r : LedgerRecord) : Except StoreError Store :=
  if store.records.any (fun x => x.entityId == r.entityId && x.chainIndex == r.chainIndex) then
    .error .conflictError
  else .ok { records := store.records ++ [r] }

/-- Modelled from the spec: `getChain(entityId)` of section 4.2: the records of
the entity in ascending `chainIndex`; empty when there are none. -/
def Store.getChain (store : Store) (entityId : String) : List LedgerRecord :=
  (store.records.filter (fun x => x.entityId == entityId)).insertionSort byIndex

/-- Modelled from the spec: `getTail(entityId)` of section 4.2: the record of
the entity with the highest `chainIndex`, or none. -/
def Store.getTail (store : Store) (entityId : String) : Option LedgerRecord :=
  (store.getChain entityId).getLast?

/-- Modelled from the spec: `getRecent(limit)` of section 4.2: the most recent
records across all entities, descending `timestamp`, bounded by `limit`. -/
def Store.getRecent (store : Store) (limit : Nat) : List LedgerRecord :=
  (store.records.insertionSort recentFirst).take limit

/-- Modelled from the spec: the verification result of sections 4.3 and 6. -/
structure VerificationResult where
  isValid : Bool
  totalRecords : Nat
  verifiedRecords : Nat
  brokenAtIndex : Option Nat
  errorMessage : Option String
  deriving DecidableEq, Repr

/-- Modelled from the spec: the report of step 6 of section 4.3 for a first
failure at position `i`. -/
def brokenAt (total i : Nat) (reason : String) : VerificationResult :=
  { isValid := false, totalRecords := total, verifiedRecords := i, brokenAtIndex := some i
    errorMessage := some reason }

/-- Modelled from the spec: the scan of section 4.3 from position `i`, where
`expected` is the stored hash of the record before (the genesis sentinel at
position 0). Step 2 recomputes the hash of the record, steps 3 and 4 compare
its previous hash, step 5 reports a valid chain, step 6 stops at the first
failure. -/
def verifyFrom (S : HashScheme) (total : Nat) :
    Nat → String → List LedgerRecord → VerificationResult
  | _, _, [] =>
    { isValid := true, totalRecords := total, verifiedRecords := total, brokenAtIndex := none
      errorMessage := none }
  | i, expected, r :: rest =>
    if S.digest r.hashInput ≠ r.currentHash then brokenAt total i "content hash mismatch"
    else if r.previousHash ≠ expected then
      brokenAt total i (if i = 0 then "genesis mismatch" else "broken link")
    else verifyFrom S total (i + 1) r.currentHash rest

/-- Modelled from the spec: the Chain Verifier of section 4.3. -/
def verify (S : HashScheme) (chain : List LedgerRecord) : VerificationResult :=
  verifyFrom S chain.length 0 S.genesis chain

/-- Modelled from the spec: the append path of sections 2 and 5: read the tail,
build the next record, append it. -/
def recordChange (S : HashScheme) (store : Store) (ev : ChangeEvent) : Except StoreError Store :=
  store.append (build S ev (store.getTail ev.entityId))

/-- A sequence of change events recorded one after the other. -/
def replay (S : HashScheme) : Store → List ChangeEvent → Except StoreError Store
  | store, [] => .ok store
  | store, ev :: evs =>
    match recordChange S store ev with
    | .ok next => replay S next evs
    | .error e => .error e

/-- A digest for the examples: the fields joined in a fixed order (the scheme
section 9 suggests, without the final hashing). -/
def joinDigest (x : HashInput) : String :=
  x.id ++ "|" ++ x.entityId ++ "|" ++ toString x.chainIndex ++ "|" ++ toString x.timestamp ++
    "|" ++ x.fieldChanged ++ "|" ++ x.oldValue.getD "" ++ "|" ++ x.newValue.getD "" ++ "|" ++
    x.changedByUserId ++ "|" ++ x.changedByEmail ++ "|" ++ x.previousHash

/-- The hash scheme of the examples. -/
def exampleScheme : HashScheme := { digest := joinDigest, genesis := "GENESIS" }

/-- The first event of the scenario of section 8: asset A-1 is assigned to alice. -/
def assignAlice : ChangeEvent :=
  { id := "c1", entityId := "A-1", fieldChanged := "assignedTo", oldValue := none
    newValue := some "alice@co.com", changedByUserId := "u1", changedByEmail := "admin@co.com"
    timestamp := 100 }

/-- The second event of the scenario: asset A-1 goes from alice to bob. -/
def assignBob : ChangeEvent :=
  { id := "c2", entityId := "A-1", fieldChanged := "assignedTo", oldValue := some "alice@co.com"
    newValue := some "bob@co.com", changedByUserId := "u1", changedByEmail := "admin@co.com"
    timestamp := 200 }

/-- The first record of the scenario. -/
def aliceRecord : LedgerRecord := build exampleScheme assignAlice none

/-- The second record of the scenario. -/
def bobRecord : LedgerRecord := build exampleScheme assignBob (some aliceRecord)

/-! ## `RecentAuditWidget.jsx` -/

/-- One element of `data.changes`, with the properties the widget reads; the
timestamp is the instant handed to `new Date`. -/
structure RecentChange where
  id : JsVal
  asset_name : JsVal
  timestamp : Nat
  old_value : JsVal
  new_value : JsVal
  changed_by_email : JsVal
  deriving DecidableEq, Repr

/-- The two state variables of the widget (RecentAuditWidget.jsx:6-7). -/
structure RecentAuditState where
  recentChanges : List RecentChange
  loading : Bool
  deriving DecidableEq, Repr

/-- The state the widget starts in. -/
def RecentAuditState.initial : RecentAuditState :=
  { recentChanges := [], loading := true }

/-- The limit `fetchRecentChanges` passes to `getRecentAudits`
(RecentAuditWidget.jsx:15). -/
def requestedLimit : Nat := 10

/-- The path `apiService.getRecentAudits(limit)` requests (api.js:197-199). -/
def getRecentAuditsPath (limit : Nat) : String :=
  "/audit/recent?limit=" ++ toString limit

/-- One call of `fetchRecentChanges`: the widget state it leaves and the path
it requested. -/
structure RecentRun where
  state : RecentAuditState
  requested : String
  deriving DecidableEq, Repr

/-- The function `fetchRecentChanges` (RecentAuditWidget.jsx:13-22). `outcome`
is the outcome of the request; a resolved value carries `data.changes`, `none`
when that property is missing or falsy. -/
def fetchRecentChanges (outcome : Except String (Option (List RecentChange)))
    (s : RecentAuditState) : RecentRun :=
  match outcome with
  | .ok changes =>
    { state := { recentChanges := changes.getD [], loading := false }
      requested := getRecentAuditsPath requestedLimit }
  | .error _ =>
    { state := { s with loading := false }, requested := getRecentAuditsPath requestedLimit }

/-- What the widget returns (RecentAuditWidget.jsx:24-74). -/
inductive WidgetView where
  | loader
  | noRecentChanges
  | changeList (entries : List RecentChange)
  deriving DecidableEq, Repr

/-- The component `RecentAuditWidget` as a function of its state; the entries
are rendered by `recentChanges.map`, one card each, in order. -/
def RecentAuditWidget (s : RecentAuditState) : WidgetView :=
  if s.loading then .loader
  else if s.recentChanges.length = 0 then .noRecentChanges
  else .changeList s.recentChanges

/-- The changes a view of the widget shows. -/
def WidgetView.entries : WidgetView → List RecentChange
  | .changeList entries => entries
  | _ => []

/-- Modelled from the spec: `getRecentChanges(limit)` of the Audit Query
Service (section 4.4), a pass-through to `getRecent` of the store, with each
record put on the wire under the snake_case names of section 6. The name of
the asset is looked up by the service. -/
def recentChangesResponse (assetName : String → String) (store : Store) (limit : Nat) :
    List RecentChange :=
  (store.getRecent limit).map (fun r =>
    { id := .str r.id, asset_name := .str (assetName r.entityId), timestamp := r.timestamp
      old_value := match r.oldValue with
        | some v => .str v
        | none => .null
      new_value := match r.newValue with
        | some v => .str v
        | none => .null
      changed_by_email := .str r.changedByEmail })

/-- A record passes the checks of the scan: its recomputed hash is its stored
hash and its previous hash is the expected one. -/
def linkOK (S : HashScheme) (expected : String) (r : LedgerRecord) : Prop :=
  S.digest r.hashInput = r.currentHash ∧ r.previousHash = expected

/-- Every record of the list passes the checks of the scan, started with
`expected` as the hash before the first record. -/
def ChainOK (S : HashScheme) : String → List LedgerRecord → Prop
  | _, [] => True
  | expected, r :: rest => linkOK S expected r ∧ ChainOK S r.currentHash rest

/-- The stored hash of the last record of a list, `start` for the empty list. -/
def tipHash (start : String) : List LedgerRecord → String
  | [] => start
  | r :: rest => tipHash r.currentHash rest

/-- A change of one field of a stored record to a given value, with every
other field, the hashes included, left as stored. -/
inductive Mutation where
  | id (v : String)
  | entityId (v : String)
  | chainIndex (v : Nat)
  | timestamp (v : Nat)
  | fieldChanged (v : String)
  | oldValue (v : Option String)
  | newValue (v : Option String)
  | changedByUserId (v : String)
  | changedByEmail (v : String)
  | previousHash (v : String)
  | currentHash (v : String)
  deriving DecidableEq, Repr

/-- The record after the mutation. -/
def Mutation.apply : Mutation → LedgerRecord → LedgerRecord
  | .id v, r => { r with id := v }
  | .entityId v, r => { r with entityId := v }
  | .chainIndex v, r => { r with chainIndex := v }
  | .timestamp v, r => { r with timestamp := v }
  | .fieldChanged v, r => { r with fieldChanged := v }
  | .oldValue v, r => { r with oldValue := v }
  | .newValue v, r => { r with newValue := v }
  | .changedByUserId v, r => { r with changedByUserId := v }
  | .changedByEmail v, r => { r with changedByEmail := v }
  | .previousHash v, r => { r with previousHash := v }
  | .currentHash v, r => { r with currentHash := v }

/-- The mutation leaves the record in its place in the chain that
`getChain` reads back: it touches neither `entityId`, by which the chain is
selected, nor `chainIndex`, by which it is ordered. -/
def Mutation.keepsPlace : Mutation → Bool
  | .entityId _ => false
  | .chainIndex _ => false
  | _ => true

/-- A third event of the scenario: asset A-1 goes from bob to carol. -/
def assignCarol : ChangeEvent :=
  { id := "c3", entityId := "A-1", fieldChanged := "assignedTo", oldValue := some "bob@co.com"
    newValue := some "carol@co.com", changedByUserId := "u1", changedByEmail := "admin@co.com"
    timestamp := 300 }

/-- The third record of the scenario. -/
def carolRecord : LedgerRecord := build exampleScheme assignCarol (some bobRecord)

/-- The records of one entity in the order they were appended. -/
def Store.ofEntity (store : Store) (entityId : String) : List LedgerRecord :=
  store.records.filter (fun x => x.entityId == entityId)

/-- The shape of a store that was filled through the append path: for every
entity the records appended for it carry the positions 0, 1, 2, ... and pass
the checks of the scan. -/
def StoreOK (S : HashScheme) (store : Store) : Prop :=
  ∀ e : String,
    (store.ofEntity e).map (fun x => x.chainIndex) = List.range (store.ofEntity e).length ∧
    ChainOK S S.genesis (store.ofEntity e)

/-- An answer 500 whose body is the JSON value `null`. -/
def nullErrorResponse : Response :=
  { status := 500, ok := false, statusText := "Internal Server Error", json := .ok none }

end Itam

namespace Itam

/-! ## The audit trail view -/

theorem strTruthy_eq_true_iff (o : Option String) :
    strTruthy o = true ↔ ∃ m, o = some m ∧ m ≠ "" := by
  cases o <;> simp [strTruthy]

theorem verifiedHeading_ne_tamperingHeading : verifiedHeading ≠ tamperingHeading := by
  decide

/-- Claim C1, as stated, fails: AuditTrail shows the "CHAIN VERIFIED" heading
for a state whose second displayed record does not name the hash of the first
as its previous hash. -/
theorem verified_heading_without_hash_link :
    (AuditTrail forgedState).showsVerified = true ∧
      ¬ HashChained (AuditTrail forgedState).displayed := by
  refine ⟨by decide, ?_⟩
  intro h
  obtain ⟨a, b, ha, hb, hab⟩ := h 1 (by decide) (by decide)
  have ha' : a = genesisRecord := by
    have : (AuditTrail forgedState).displayed[1 - 1]? = some genesisRecord := by decide
    rw [this] at ha
    exact (Option.some.inj ha).symm
  have hb' : b = unlinkedRecord := by
    have : (AuditTrail forgedState).displayed[1]? = some unlinkedRecord := by decide
    rw [this] at hb
    exact (Option.some.inj hb).symm
  subst ha' hb'
  revert hab
  decide

/-- Claim C1, amended: the verdict is the one of the verify response. AuditTrail
shows the "CHAIN VERIFIED" heading exactly when it is not loading, has no
error, `auditData` is present with `total_changes` other than 0 and
`verification?.is_valid` is truthy; the hashes of the records play no part, so
replacing the records by any others leaves the heading as it is. -/
theorem verified_heading_iff_endpoint_verdict (s : AuditChainState) :
    ((AuditTrail s).showsVerified = true ↔
      (s.loading = false ∧ strTruthy s.error = false ∧
        (∃ d, s.auditData = some d ∧ d.total_changes ≠ .num 0) ∧
        (isValidOf s.verification).truthy = true)) ∧
    (∀ d records, s.auditData = some d →
      (AuditTrail { s with auditData := some { d with records := records } }).showsVerified
        = (AuditTrail s).showsVerified) := by
  obtain ⟨ad, v, l, e⟩ := s
  constructor
  · cases l <;> cases he : strTruthy e <;> cases ad with
    | none => simp [AuditTrail, View.showsVerified, he]
    | some d =>
      by_cases hd : d.total_changes = .num 0
      · simp [AuditTrail, View.showsVerified, he, hd]
      · cases hv : (isValidOf v).truthy <;>
          simp [AuditTrail, View.showsVerified, he, hd, hv] <;>
          exact fun h => verifiedHeading_ne_tamperingHeading h.symm
  · intro d records hd
    simp only at hd
    subst hd
    cases l <;> cases he : strTruthy e <;>
      by_cases hd : d.total_changes = .num 0 <;>
      simp [AuditTrail, View.showsVerified, he, hd]

theorem fetchAuditChain_ok (assetId : JsVal) (a : Option AuditData) (v : Option Verification)
    (verifyRejectsFirst : Bool) (s : AuditChainState) (hid : assetId.truthy = true) :
    fetchAuditChain assetId (.ok a) (.ok v) verifyRejectsFirst s =
      { state := { auditData := a, verification := v, loading := false, error := none }
        requests := [getAuditChainPath assetId, verifyAuditChainPath assetId] } := by
  simp [fetchAuditChain, hid]

/-- Claim C2: AuditTrail returns one view, chosen in the order loading, fetch
error, "No audit trail yet", verification banner; a state with a non-empty
error or with an empty chain never shows the "TAMPERING DETECTED" heading, and
the error view and the no-data view are different views. -/
theorem auditTrail_view_selection (s : AuditChainState) :
    (s.loading = true → AuditTrail s = .loadingView) ∧
    (s.loading = false → ∀ m, s.error = some m → m ≠ "" → AuditTrail s = .errorView m) ∧
    (s.loading = false → strTruthy s.error = false →
      (s.auditData = none ∨ ∃ d, s.auditData = some d ∧ d.total_changes = .num 0) →
      AuditTrail s = .noAuditTrail) ∧
    (s.loading = false → strTruthy s.error = false →
      ∀ d, s.auditData = some d → d.total_changes ≠ .num 0 →
      AuditTrail s =
        .trail (if (isValidOf s.verification).truthy then verifiedHeading else tamperingHeading)
          (totalRecordsOf s.verification) (verifiedRecordsOf s.verification)
          (if !(isValidOf s.verification).truthy then
             some { brokenAt := brokenAtOf s.verification
                    errorMessage := errorMessageOf s.verification }
           else none)
          d.total_changes (timeline s.verification d.records)) ∧
    ((strTruthy s.error = true ∨ s.auditData = none ∨
        ∃ d, s.auditData = some d ∧ d.total_changes = .num 0) →
      (AuditTrail s).showsTampering = false) ∧
    (∀ m, View.errorView m ≠ View.noAuditTrail) := by
  obtain ⟨ad, v, l, e⟩ := s
  refine ⟨?_, ?_, ?_, ?_, ?_, ?_⟩
  · intro hl
    simp only at hl
    simp [AuditTrail, hl]
  · intro hl m he hm
    simp only at hl he
    simp [AuditTrail, hl, he, strTruthy, hm]
  · intro hl he hd
    simp only at hl he hd
    rcases hd with hd | ⟨d, hd, h0⟩
    · simp [AuditTrail, hl, he, hd]
    · simp [AuditTrail, hl, he, hd, h0]
  · intro hl he d hd h0
    simp only at hl he hd
    simp [AuditTrail, hl, he, hd, h0]
  · intro h
    simp only at h
    cases l
    · rcases h with he | hd | ⟨d, hd, h0⟩
      · simp [AuditTrail, he, View.showsTampering]
      · cases hs : strTruthy e <;> simp [AuditTrail, hd, hs, View.showsTampering]
      · cases hs : strTruthy e <;> simp [AuditTrail, hd, h0, hs, View.showsTampering]
    · simp [AuditTrail, View.showsTampering]
  · intro m h
    cases h

/-- Witness for `auditTrail_view_selection`: a state holding a fetch error
together with a verify response that reports a break shows the error view. -/
theorem auditTrail_view_selection_witness :
    AuditTrail erroredState = .errorView "Network Error" :=
  (auditTrail_view_selection erroredState).2.1 rfl "Network Error" rfl (by decide)

/-- Claim C3, as stated, fails: after a successful fetch whose verify response
has `is_valid = false`, an audit response with `total_changes = 0` makes
AuditTrail show "No audit trail yet" and no tampering alert. -/
theorem violation_hidden_by_no_data_view :
    (fetchAuditChain (.str "A-1") (.ok (some emptyAudit)) (.ok (some brokenVerdict)) false
        AuditChainState.initial).state.verification = some brokenVerdict ∧
    brokenVerdict.is_valid = .bool false ∧
    AuditTrail (fetchAuditChain (.str "A-1") (.ok (some emptyAudit)) (.ok (some brokenVerdict))
        false AuditChainState.initial).state = .noAuditTrail ∧
    (AuditTrail (fetchAuditChain (.str "A-1") (.ok (some emptyAudit))
        (.ok (some brokenVerdict)) false AuditChainState.initial).state).showsTampering = false := by
  decide

/-- Claim C3, amended: after a successful fetch whose audit response is present
with `total_changes` other than 0 and whose verify response has
`is_valid = false`, AuditTrail shows the "TAMPERING DETECTED" heading with the
alert box carrying that response's `broken_at_index` and `error_message`. -/
theorem violation_shown_when_chain_nonempty (assetId : JsVal) (d : AuditData)
    (v : Verification) (verifyRejectsFirst : Bool) (s : AuditChainState)
    (hid : assetId.truthy = true) (hd : d.total_changes ≠ .num 0)
    (hv : v.is_valid = .bool false) :
    AuditTrail (fetchAuditChain assetId (.ok (some d)) (.ok (some v)) verifyRejectsFirst s).state
      = .trail tamperingHeading v.total_records v.verified_records
          (some { brokenAt := v.broken_at_index, errorMessage := v.error_message })
          d.total_changes (timeline (some v) d.records) := by
  rw [fetchAuditChain_ok assetId (some d) (some v) verifyRejectsFirst s hid]
  have ht : (isValidOf (some v)).truthy = false := by simp [isValidOf, hv, JsVal.truthy]
  simp [AuditTrail, strTruthy, hd, ht, totalRecordsOf, verifiedRecordsOf, brokenAtOf,
    errorMessageOf]

/-- Witness for `violation_shown_when_chain_nonempty`: asset "A-1", two
records, a verify response that reports a break at record 1. -/
theorem violation_shown_when_chain_nonempty_witness :
    AuditTrail (fetchAuditChain (.str "A-1")
        (.ok (some { total_changes := .num 2, records := [genesisRecord, unlinkedRecord] }))
        (.ok (some brokenVerdict)) false AuditChainState.initial).state
      = .trail tamperingHeading (.num 2) (.num 1)
          (some { brokenAt := .num 1, errorMessage := .str "broken link at index 1" })
          (.num 2) (timeline (some brokenVerdict) [genesisRecord, unlinkedRecord]) :=
  violation_shown_when_chain_nonempty (.str "A-1")
    { total_changes := .num 2, records := [genesisRecord, unlinkedRecord] }
    brokenVerdict false AuditChainState.initial (by decide) (by decide) rfl

theorem isTamperedRecord_broken (v : Verification) (k i : Nat)
    (hv : v.is_valid = .bool false) (hb : v.broken_at_index = .num k) :
    isTamperedRecord (some v) i = decide (k = i) := by
  simp [isTamperedRecord, isValidOf, brokenAtOf, hv, hb, JsVal.truthy]

theorem isTamperedRecord_valid (v : Option Verification) (i : Nat)
    (hv : (isValidOf v).truthy = true) : isTamperedRecord v i = false := by
  simp [isTamperedRecord, hv]

theorem marked_enumFrom (v : Verification) (k : Nat)
    (hv : v.is_valid = .bool false) (hb : v.broken_at_index = .num k) :
    ∀ (l : List AuditRecord) (n : Nat),
      ((((l.enumFrom n).map (fun p => renderRecord (some v) p.2 p.1)).filter
          (fun c => c.tampered)).map (fun c => c.record))
        = if n ≤ k then (l[k - n]?).toList else [] := by
  intro l
  induction l with
  | nil => intro n; simp
  | cons a l ih =>
    intro n
    simp only [List.enumFrom_cons, List.map_cons, List.filter_cons, renderRecord,
      isTamperedRecord_broken v k n hv hb]
    have hrest := ih (n + 1)
    simp only [renderRecord] at hrest
    by_cases hkn : k = n
    · subst hkn
      simp only [decide_True, if_true, List.map_cons]
      rw [hrest]
      simp
    · simp only [hkn, decide_False, Bool.false_eq_true, if_false]
      rw [hrest]
      by_cases hle : n ≤ k
      · have hlt : n + 1 ≤ k := by omega
        have hsub : k - n = (k - (n + 1)) + 1 := by omega
        simp only [hle, hlt, if_true]
        rw [hsub, List.getElem?_cons_succ]
      · have hlt : ¬ n + 1 ≤ k := by omega
        simp [hle, hlt]

theorem timeline_length (v : Option Verification) (records : List AuditRecord) :
    (timeline v records).length = records.length := by
  simp [timeline, List.enum]

/-- Claim C4: when the records are listed with `chain_index` 0, 1, 2, ... and
the verify response has `is_valid = false` and `broken_at_index = k` with
`k` below the number of records, the timeline marks exactly one record as
tampered, the one at position `k`, whose `chain_index` is `k`; when
`is_valid` is true no record is marked. In its main view AuditTrail shows
this timeline. -/
theorem tampered_mark_unique (v : Verification) (records : List AuditRecord) (k : Nat)
    (hasc : ∀ (i : Nat) (h : i < records.length), (records.get ⟨i, h⟩).chain_index = .num i)
    (hk : k < records.length)
    (hv : v.is_valid = .bool false) (hb : v.broken_at_index = .num k) :
    (((timeline (some v) records).filter (fun c => c.tampered)).map (fun c => c.record)
        = [records.get ⟨k, hk⟩]) ∧
    (records.get ⟨k, hk⟩).chain_index = .num k ∧
    (∀ r ∈ records, r.chain_index = .num k → r = records.get ⟨k, hk⟩) ∧
    (∀ w : Verification, w.is_valid = .bool true →
      (timeline (some w) records).filter (fun c => c.tampered) = []) ∧
    (∀ s : AuditChainState, s.loading = false → strTruthy s.error = false →
      ∀ d, s.auditData = some d → d.total_changes ≠ .num 0 →
        (AuditTrail s).cards = timeline s.verification d.records) := by
  refine ⟨?_, hasc k hk, ?_, ?_, ?_⟩
  · have h := marked_enumFrom v k hv hb records 0
    simp only [Nat.zero_le, if_true, Nat.sub_zero] at h
    rw [timeline, List.enum, h, List.getElem?_eq_getElem hk]
    rfl
  · intro r hr hrk
    obtain ⟨i, hi, rfl⟩ := List.getElem_of_mem hr
    have h1 := hasc i hi
    simp only [List.get_eq_getElem] at h1
    rw [h1] at hrk
    have hik : i = k := by
      have := JsVal.num.inj hrk
      exact_mod_cast this
    subst hik
    rfl
  · intro w hw
    rw [List.filter_eq_nil_iff]
    intro c hc
    simp only [timeline, List.mem_map] at hc
    obtain ⟨p, _, rfl⟩ := hc
    simp [renderRecord, isTamperedRecord, isValidOf, hw, JsVal.truthy]
  · intro s hl he d hd h0
    simp [AuditTrail, hl, he, hd, h0, View.cards]

/-- Witness for `tampered_mark_unique`: two records with `chain_index` 0 and
1 and a verify response that reports a break at record 1. -/
theorem tampered_mark_unique_witness :
    ((timeline (some brokenVerdict) [genesisRecord, unlinkedRecord]).filter
        (fun c => c.tampered)).map (fun c => c.record) = [unlinkedRecord] :=
  (tampered_mark_unique brokenVerdict [genesisRecord, unlinkedRecord] 1
    (by decide) (by decide) rfl rfl).1

/-! ## The hook `useAuditChain` -/

/-- Claim C5: a call of `fetchAuditChain` with a truthy `assetId` hands
exactly two paths to the API service, the chain path and the verify path of
that asset, whatever the hook state was; when both requests succeed,
`auditData` and `verification` are exactly the two responses, and the state
left does not depend on the state before the call. -/
theorem fetchAuditChain_fetches_afresh (assetId : JsVal)
    (auditResult : Except (Option String) (Option AuditData))
    (verifyResult : Except (Option String) (Option Verification))
    (verifyRejectsFirst : Bool) (s : AuditChainState) (hid : assetId.truthy = true) :
    (fetchAuditChain assetId auditResult verifyResult verifyRejectsFirst s).requests
        = [getAuditChainPath assetId, verifyAuditChainPath assetId] ∧
    (∀ a v, auditResult = .ok a → verifyResult = .ok v →
      (fetchAuditChain assetId auditResult verifyResult verifyRejectsFirst s).state
        = { auditData := a, verification := v, loading := false, error := none }) ∧
    (∀ a v (s2 : AuditChainState), auditResult = .ok a → verifyResult = .ok v →
      (fetchAuditChain assetId auditResult verifyResult verifyRejectsFirst s2).state
        = (fetchAuditChain assetId auditResult verifyResult verifyRejectsFirst s).state) := by
  refine ⟨?_, ?_, ?_⟩
  · cases auditResult <;> cases verifyResult <;> simp [fetchAuditChain, hid]
  · intro a v ha hv
    subst ha hv
    rw [fetchAuditChain_ok _ _ _ _ _ hid]
  · intro a v s2 ha hv
    subst ha hv
    rw [fetchAuditChain_ok _ _ _ _ _ hid, fetchAuditChain_ok _ _ _ _ _ hid]

/-- Witness for `fetchAuditChain_fetches_afresh`: a refresh for asset "A-1"
from a state that still holds an older chain and verdict. -/
theorem fetchAuditChain_fetches_afresh_witness :
    (fetchAuditChain (.str "A-1") (.ok (some emptyAudit)) (.ok (some brokenVerdict)) false
        forgedState).requests = ["/audit/asset/A-1", "/audit/asset/A-1/verify"] ∧
    (fetchAuditChain (.str "A-1") (.ok (some emptyAudit)) (.ok (some brokenVerdict)) false
        forgedState).state
      = { auditData := some emptyAudit, verification := some brokenVerdict, loading := false
          error := none } :=
  ⟨(fetchAuditChain_fetches_afresh (.str "A-1") (.ok (some emptyAudit))
      (.ok (some brokenVerdict)) false forgedState (by decide)).1,
   (fetchAuditChain_fetches_afresh (.str "A-1") (.ok (some emptyAudit))
      (.ok (some brokenVerdict)) false forgedState (by decide)).2.1 _ _ rfl rfl⟩

/-! ## One invocation of `ApiService.request` -/

/-- Claim C6: an invocation of `request` makes one or two `fetch` calls; it
makes the second exactly when the first response has status 401 or 403, a
token was stored and the awaited refresh resolved to true; after a second
fetch the outcome is that of the second response alone (no further refresh or
retry), and the invocation calls `refreshToken` only on that same 401/403
path. -/
theorem request_fetches_at_most_twice (token : Option String) (isRefreshing : Bool)
    (url : String) (options : RequestOptions) (first : Except String Response)
    (refreshed : Bool) (newToken : Option String) (second : Except String Response) :
    1 ≤ (ApiService.request token isRefreshing url options first refreshed newToken
          second).fetches.length ∧
    (ApiService.request token isRefreshing url options first refreshed newToken
          second).fetches.length ≤ 2 ∧
    ((ApiService.request token isRefreshing url options first refreshed newToken
          second).fetches.length = 2 ↔
      ∃ response, first = .ok response ∧ (response.status = 401 ∨ response.status = 403) ∧
        strTruthy token = true ∧ refreshed = true) ∧
    ((ApiService.request token isRefreshing url options first refreshed newToken
          second).fetches.length = 2 →
      (ApiService.request token isRefreshing url options first refreshed newToken
          second).result
        = match second with
          | .error e => .error e
          | .ok retried => settle retried) ∧
    ((ApiService.request token isRefreshing url options first refreshed newToken
          second).refreshCalled = true →
      ∃ response, first = .ok response ∧ (response.status = 401 ∨ response.status = 403) ∧
        strTruthy token = true ∧ isRefreshing = false) := by
  cases first with
  | error e => simp [ApiService.request]
  | ok response =>
    cases hw : wantsRefresh response token
    · have hw2 : ¬ ((response.status = 401 ∨ response.status = 403) ∧ strTruthy token = true) := by
        intro h
        simp only [wantsRefresh, h.2, Bool.and_true, Bool.or_eq_false_iff, beq_eq_false_iff_ne,
          ne_eq] at hw
        rcases h.1 with h1 | h1
        · exact hw.1 h1
        · exact hw.2 h1
      simp only [ApiService.request, hw]
      simp
      intro h1 h2
      exact absurd ⟨h1, h2⟩ hw2
    · have hw2 : (response.status = 401 ∨ response.status = 403) ∧ strTruthy token = true := by
        simpa [wantsRefresh] using hw
      cases refreshed <;> cases second <;> simp [ApiService.request, hw, hw2.1, hw2.2]

/-! ## Interleaved invocations of `ApiService.request` -/

theorem ApiState.inv_init : ApiState.init.Inv := by
  simp [ApiState.Inv, ApiState.init]

theorem ApiState.inv_step (s t : ApiState) (e : ApiEvent) (hs : s.Inv)
    (hst : s.step e = some t) : t.Inv := by
  obtain ⟨hf, ht⟩ := hs
  cases e with
  | unauthorized r =>
    cases hr : s.isRefreshing
    · obtain ⟨h1, h2⟩ := hf hr
      simp only [ApiState.step, hr, Bool.not_false, if_true, Option.some.injEq] at hst
      subst hst
      simp [ApiState.Inv, h1, h2]
    · simp only [ApiState.step, hr, Bool.not_true, Bool.false_eq_true, if_false,
        Option.some.injEq] at hst
      subst hst
      simp only [ApiState.Inv]
      refine ⟨fun h => ?_, fun _ => ht hr⟩
      exact absurd h (by decide)
  | refreshSettled p ok =>
    simp only [ApiState.step] at hst
    split at hst
    · rename_i hmem
      simp only [Option.some.injEq] at hst
      subst hst
      cases hr : s.isRefreshing
      · obtain ⟨h1, _⟩ := hf hr
        simp [h1] at hmem
      · obtain ⟨q, hq, hcase⟩ := ht hr
        rcases hcase with ⟨h1, h2⟩ | ⟨h1, _⟩
        · have hpq : p = q := by simpa [h1] using hmem
          subst hpq
          simp [ApiState.Inv, hr, hq, h1, h2]
        · simp [h1] at hmem
    · cases hst
  | callback p =>
    simp only [ApiState.step] at hst
    split at hst
    · rename_i ok hlook
      simp only [Option.some.injEq] at hst
      subst hst
      cases hr : s.isRefreshing
      · obtain ⟨_, h2⟩ := hf hr
        simp [h2] at hlook
      · obtain ⟨q, _, hcase⟩ := ht hr
        rcases hcase with ⟨_, h2⟩ | ⟨h1, ok2, h2⟩
        · simp [h2] at hlook
        · have hpq : p = q := by
            by_contra hne
            have hbeq : (p == q) = false := by simpa using hne
            simp [h2, List.lookup, hbeq] at hlook
          subst hpq
          simp [ApiState.Inv, h1, h2]
    · cases hst

theorem ApiState.inv_run (es : List ApiEvent) :
    ∀ s t : ApiState, s.Inv → s.run es = some t → t.Inv := by
  induction es with
  | nil =>
    intro s t hs h
    simp only [ApiState.run, Option.some.injEq] at h
    exact h ▸ hs
  | cons e es ih =>
    intro s t hs h
    simp only [ApiState.run] at h
    cases hstep : s.step e with
    | none => simp [hstep] at h
    | some u =>
      simp only [hstep] at h
      exact ih u t (ApiState.inv_step s u e hs hstep) h

/-- Claim C7: in every state the `apiService` object can reach, at most one
call of `refreshToken` is in flight (and at most one is unfinished, counting a
settled call whose callback has not run); while one is unfinished, an
invocation that gets a 401/403 answer does not call `refreshToken` again and
awaits the promise of that one call, which is the one in `refreshPromise`. -/
theorem single_refresh_in_flight (s : ApiState) (hs : s.Reachable) :
    s.inFlight.length ≤ 1 ∧ s.pending.length ≤ 1 ∧
    (∀ p, p ∈ s.pending → s.refreshPromise = some p ∧
      ∀ r, ∃ t, s.step (.unauthorized r) = some t ∧ t.refreshCalls = s.refreshCalls ∧
        t.inFlight = s.inFlight ∧ t.pending = s.pending ∧
        t.waiting = (r, some p) :: s.waiting) := by
  obtain ⟨es, hes⟩ := hs
  obtain ⟨hf, ht⟩ := ApiState.inv_run es _ _ ApiState.inv_init hes
  cases hr : s.isRefreshing
  · obtain ⟨h1, h2⟩ := hf hr
    simp [ApiState.pending, h1, h2]
  · obtain ⟨q, hq, hcase⟩ := ht hr
    have hpend : s.pending = [q] := by
      rcases hcase with ⟨h1, h2⟩ | ⟨h1, ok, h2⟩ <;> simp [ApiState.pending, h1, h2]
    have hfl : s.inFlight.length ≤ 1 := by
      rcases hcase with ⟨h1, _⟩ | ⟨h1, _⟩ <;> simp [h1]
    refine ⟨hfl, by simp [hpend], ?_⟩
    intro p hp
    have hpq : p = q := by simpa [hpend] using hp
    subst hpq
    refine ⟨hq, fun r =>
      ⟨{ s with waiting := (r, s.refreshPromise) :: s.waiting }, ?_, rfl, rfl, rfl, ?_⟩⟩
    · simp only [ApiState.step, hr, Bool.not_true, Bool.false_eq_true, if_false]
    · simp [hq]

/-- Witness for `single_refresh_in_flight`: after two invocations got a 401
answer, one refresh call is in flight and both invocations await its promise;
a third one would await it too. -/
theorem single_refresh_in_flight_witness :
    twoUnauthorized.Reachable ∧ twoUnauthorized.inFlight.length ≤ 1 ∧
      twoUnauthorized.refreshPromise = some 0 :=
  ⟨⟨[.unauthorized 1, .unauthorized 2], rfl⟩,
   (single_refresh_in_flight twoUnauthorized ⟨[.unauthorized 1, .unauthorized 2], rfl⟩).1,
   ((single_refresh_in_flight twoUnauthorized ⟨[.unauthorized 1, .unauthorized 2], rfl⟩).2.2 0
      (by decide)).1⟩

/-! ## `localStorage` and the auth service -/

theorem getItem_removeItem_self (ls : LocalStorage) (k : String) :
    getItem (removeItem ls k) k = none := by
  induction ls with
  | nil => rfl
  | cons p ls ih =>
    obtain ⟨a, b⟩ := p
    simp only [getItem, removeItem] at ih ⊢
    by_cases h : a = k
    · simp [List.filter_cons, h, ih]
    · have hbeq : (k == a) = false := by simpa using fun h2 => h h2.symm
      simp [List.filter_cons, h, List.lookup, hbeq, ih]

theorem getItem_removeItem_ne (ls : LocalStorage) (k j : String) (hne : j ≠ k) :
    getItem (removeItem ls k) j = getItem ls j := by
  induction ls with
  | nil => rfl
  | cons p ls ih =>
    obtain ⟨a, b⟩ := p
    simp only [getItem, removeItem] at ih ⊢
    by_cases h : a = k
    · subst h
      have hbeq : (j == a) = false := by simpa using hne
      simp [List.filter_cons, List.lookup, hbeq, ih]
    · cases hja : j == a <;> simp [List.filter_cons, h, List.lookup, hja, ih]

theorem getItem_setItem_self (ls : LocalStorage) (k v : String) :
    getItem (setItem ls k v) k = some v := by
  simp [getItem, setItem, List.lookup]

theorem getItem_setItem_ne (ls : LocalStorage) (k v j : String) (hne : j ≠ k) :
    getItem (setItem ls k v) j = getItem ls j := by
  have hbeq : (j == k) = false := by simpa using hne
  have h := getItem_removeItem_ne ls k j hne
  simp only [getItem] at h
  simp [getItem, setItem, List.lookup, hbeq, h]

theorem refreshKey_ne_tokenKey : REFRESH_KEY ≠ TOKEN_KEY := by decide

theorem logout_clears_entries (fetched : Except String Response) (ls : LocalStorage) :
    getItem (AuthService.logout fetched ls).1 TOKEN_KEY = none ∧
    getItem (AuthService.logout fetched ls).1 REFRESH_KEY = none := by
  have hstore : (AuthService.logout fetched ls).1
      = removeItem (removeItem ls TOKEN_KEY) REFRESH_KEY := by
    simp only [AuthService.logout]
    cases AuthService.request fetched <;> rfl
  constructor
  · rw [hstore, getItem_removeItem_ne _ _ _ refreshKey_ne_tokenKey.symm,
      getItem_removeItem_self]
  · rw [hstore, getItem_removeItem_self]

/-- Claim C8: whatever the outcome of the `/logout` request (fetch rejected,
body not JSON, response not ok, or success), after `logout` both the "token"
and the "refreshToken" entries are absent, `getToken()` returns null and
`isAuthenticated()` is false; the promise still reports whether the request
failed. -/
theorem logout_always_clears (fetched : Except String Response) (ls : LocalStorage) :
    getItem (AuthService.logout fetched ls).1 "token" = none ∧
    getItem (AuthService.logout fetched ls).1 "refreshToken" = none ∧
    AuthService.getToken (AuthService.logout fetched ls).1 = none ∧
    AuthService.isAuthenticated (AuthService.logout fetched ls).1 = false ∧
    ((AuthService.logout fetched ls).2 = .ok () ↔ ∃ d, AuthService.request fetched = .ok d) := by
  have ht : getItem (AuthService.logout fetched ls).1 TOKEN_KEY = none :=
    (logout_clears_entries fetched ls).1
  have hr : getItem (AuthService.logout fetched ls).1 REFRESH_KEY = none :=
    (logout_clears_entries fetched ls).2
  refine ⟨ht, hr, ht, ?_, ?_⟩
  · simp only [AuthService.isAuthenticated, AuthService.getToken, ht, strTruthy]
  · simp only [AuthService.logout]
    cases AuthService.request fetched <;> simp

/-- Claim C9, as stated, fails: with an access token stored and no refresh
token, `refreshToken` rejects at its first check, does not call `logout`, and
the access token stays in `localStorage`. -/
theorem refresh_rejects_token_kept :
    (AuthService.refreshToken (.ok unauthorizedResponse) accessOnlyStore).result
        = .error "No refresh token available" ∧
    (AuthService.refreshToken (.ok unauthorizedResponse) accessOnlyStore).logoutStarted = false ∧
    getItem (AuthService.refreshToken (.ok unauthorizedResponse) accessOnlyStore).storage "token"
        = some "abc" ∧
    getItem ((AuthService.refreshToken (.ok unauthorizedResponse) accessOnlyStore).afterLogout
        (.ok unauthorizedResponse)) "token" = some "abc" :=
  ⟨rfl, rfl, by decide, by decide⟩

/-- Claim C9, amended: when a non-empty refresh token is stored and
`refreshToken` rejects, it has called `logout` (without awaiting it) with the
storage untouched so far, and once that `logout` settles, whatever the outcome
of its request, both entries are absent; when no refresh token is stored,
`refreshToken` rejects with "No refresh token available", calls no `logout`
and leaves the storage as it was. -/
theorem refresh_failure_starts_logout (fetched : Except String Response) (ls : LocalStorage) :
    (strTruthy (getItem ls "refreshToken") = true →
      ∀ e, (AuthService.refreshToken fetched ls).result = .error e →
        (AuthService.refreshToken fetched ls).logoutStarted = true ∧
        (AuthService.refreshToken fetched ls).storage = ls ∧
        ∀ logoutFetched,
          getItem ((AuthService.refreshToken fetched ls).afterLogout logoutFetched) "token"
            = none ∧
          getItem ((AuthService.refreshToken fetched ls).afterLogout logoutFetched)
            "refreshToken" = none) ∧
    (strTruthy (getItem ls "refreshToken") = false →
      (AuthService.refreshToken fetched ls).result = .error "No refresh token available" ∧
      (AuthService.refreshToken fetched ls).logoutStarted = false ∧
      (AuthService.refreshToken fetched ls).storage = ls) := by
  constructor
  · intro hrt e hrej
    have hrt2 : strTruthy (getItem ls REFRESH_KEY) = true := hrt
    cases hatt : refreshAttempt fetched with
    | ok data =>
      simp [AuthService.refreshToken, hrt2, hatt] at hrej
    | error e2 =>
      have hrun : AuthService.refreshToken fetched ls
          = { result := .error e2, storage := ls, logoutStarted := true } := by
        simp [AuthService.refreshToken, hrt2, hatt]
      rw [hrun]
      refine ⟨rfl, rfl, fun logoutFetched => ?_⟩
      simp only [RefreshRun.afterLogout, if_true]
      exact ⟨(logout_clears_entries logoutFetched ls).1, (logout_clears_entries logoutFetched ls).2⟩
  · intro hrt
    have hrt2 : strTruthy (getItem ls REFRESH_KEY) = false := hrt
    simp [AuthService.refreshToken, hrt2]

/-- Witness for `refresh_failure_starts_logout`: both tokens stored, the
refresh endpoint answers 401; the refresh rejects, `logout` is started, and
after it settles (here: its request was rejected) the access token is gone. -/
theorem refresh_failure_starts_logout_witness :
    (AuthService.refreshToken (.ok unauthorizedResponse) signedInStore).logoutStarted = true ∧
    getItem ((AuthService.refreshToken (.ok unauthorizedResponse) signedInStore).afterLogout
        (.error "Failed to fetch")) "token" = none :=
  ⟨((refresh_failure_starts_logout (.ok unauthorizedResponse) signedInStore).1 (by decide)
      "Invalid refresh token" rfl).1,
   (((refresh_failure_starts_logout (.ok unauthorizedResponse) signedInStore).1 (by decide)
      "Invalid refresh token" rfl).2.2 (.error "Failed to fetch")).1⟩

/-- Claim C10: when `login` (or `register`, which does the same) resolves with
a response whose `token` is a non-empty string, `getToken()` returns exactly
that token, `isAuthenticated()` is true and the "refreshToken" entry holds the
string form of `response.refresh_token` (the value itself when it is a
string); when `response.token` is falsy the storage is left as it was. -/
theorem login_stores_both_tokens (fetched : Except String Response) (ls : LocalStorage)
    (response : JsonBody) (hres : AuthService.request fetched = .ok (some response)) :
    (AuthService.login fetched ls).2 = .ok response ∧
    AuthService.register fetched ls = AuthService.login fetched ls ∧
    (∀ t, response.token = .str t → t ≠ "" →
      AuthService.getToken (AuthService.login fetched ls).1 = some t ∧
      AuthService.isAuthenticated (AuthService.login fetched ls).1 = true ∧
      getItem (AuthService.login fetched ls).1 "refreshToken"
        = some (jsToString response.refresh_token) ∧
      (∀ r, response.refresh_token = .str r →
        getItem (AuthService.login fetched ls).1 "refreshToken" = some r)) ∧
    (response.token.truthy = false → (AuthService.login fetched ls).1 = ls) := by
  have hlogin : AuthService.login fetched ls = (storeTokens response ls, .ok response) := by
    simp [AuthService.login, hres]
  refine ⟨by rw [hlogin], by simp [AuthService.register, AuthService.login], ?_, ?_⟩
  · intro t ht hne
    have htr : response.token.truthy = true := by simp [ht, JsVal.truthy, hne]
    have hstore : (AuthService.login fetched ls).1
        = setItem (setItem ls TOKEN_KEY t) REFRESH_KEY (jsToString response.refresh_token) := by
      rw [hlogin]
      simp only [storeTokens, htr, if_true]
      rw [ht]
      rfl
    have hget : AuthService.getToken (AuthService.login fetched ls).1 = some t := by
      rw [hstore, AuthService.getToken,
        getItem_setItem_ne _ _ _ _ refreshKey_ne_tokenKey.symm, getItem_setItem_self]
    have href : getItem (AuthService.login fetched ls).1 REFRESH_KEY
        = some (jsToString response.refresh_token) := by
      rw [hstore, getItem_setItem_self]
    refine ⟨hget, ?_, href, ?_⟩
    · simp [AuthService.isAuthenticated, hget, strTruthy, hne]
    · intro r hr
      have := href
      rw [hr] at this
      exact this
  · intro hf
    rw [hlogin]
    simp [storeTokens, hf]

/-- Witness for `login_stores_both_tokens`: a login answered with token
"tok-1" and refresh token "ref-1" on an empty store. -/
theorem login_stores_both_tokens_witness :
    AuthService.getToken (AuthService.login (.ok loginResponse) []).1 = some "tok-1" ∧
    getItem (AuthService.login (.ok loginResponse) []).1 "refreshToken" = some "ref-1" :=
  ⟨((login_stores_both_tokens (.ok loginResponse) []
      { emptyBody with token := .str "tok-1", refresh_token := .str "ref-1" } rfl).2.2.1
      "tok-1" rfl (by decide)).1,
   ((login_stores_both_tokens (.ok loginResponse) []
      { emptyBody with token := .str "tok-1", refresh_token := .str "ref-1" } rfl).2.2.1
      "tok-1" rfl (by decide)).2.2.2 "ref-1" rfl⟩

/-! ## Retry and outcome of `ApiService.request` -/

theorem lookup_assignHeader (h : Headers) (name value : String) :
    (assignHeader h name value).lookup name = some value := by
  unfold assignHeader
  cases hany : h.any (fun p => p.1 == name)
  · simp only [Bool.false_eq_true, if_false]
    induction h with
    | nil => simp [List.lookup]
    | cons p t ih =>
      obtain ⟨a, b⟩ := p
      simp only [List.any_cons, Bool.or_eq_false_iff] at hany
      have hna : (name == a) = false := by
        have h1 : ¬ a = name := by simpa using hany.1
        simpa using fun h2 : name = a => h1 h2.symm
      simp only [List.cons_append, List.lookup, hna]
      exact ih hany.2
  · simp only [if_true]
    induction h with
    | nil => simp at hany
    | cons p t ih =>
      obtain ⟨a, b⟩ := p
      by_cases ha : a = name
      · subst ha
        have haa : (a == a) = true := by simp
        simp only [List.map_cons]
        rw [if_pos haa]
        simp [List.lookup]
      · have hna : (name == a) = false := by
          simpa using fun h2 : name = a => ha h2.symm
        have han : ¬ ((a == name) = true) := by simpa using ha
        have hany2 : t.any (fun p => p.1 == name) = true := by
          simpa [List.any_cons, ha] using hany
        simp only [List.map_cons]
        rw [if_neg han]
        simp only [List.lookup, hna]
        exact ih hany2

theorem refreshToken_ok (fetched : Except String Response) (ls : LocalStorage) (data : JsonBody)
    (hrun : (AuthService.refreshToken fetched ls).result = .ok data) :
    (AuthService.refreshToken fetched ls).storage
      = setItem (setItem ls TOKEN_KEY (jsToString data.access_token))
          REFRESH_KEY (jsToString data.refresh_token) := by
  unfold AuthService.refreshToken at hrun ⊢
  cases hrt : strTruthy (getItem ls REFRESH_KEY)
  · simp [hrt] at hrun
  · cases hatt : refreshAttempt fetched with
    | error e => simp [hrt, hatt] at hrun
    | ok d =>
      simp only [hrt, hatt, Bool.not_true, Bool.false_eq_true, if_false] at hrun ⊢
      have hd : d = data := by
        injection hrun
      rw [hd]

/-- Claim C11: when `refreshToken` resolved with `data` and `request` retries,
the second fetch has the URL, method and body of the first and its
`Authorization` header is "Bearer " followed by the string form of
`data.access_token`, which is what `refreshToken` stored under "token" and
`getToken()` reads back (the access token itself when it is a string). -/
theorem retry_carries_new_token (refreshFetched : Except String Response) (ls : LocalStorage)
    (data : JsonBody) (token : Option String) (isRefreshing : Bool) (url : String)
    (options : RequestOptions) (response : Response) (second : Except String Response)
    (hrun : (AuthService.refreshToken refreshFetched ls).result = .ok data)
    (hw : wantsRefresh response token = true) :
    AuthService.getToken (AuthService.refreshToken refreshFetched ls).storage
      = some (jsToString data.access_token) ∧
    ∃ call1 call2,
      (ApiService.request token isRefreshing url options (.ok response) true
        (AuthService.getToken (AuthService.refreshToken refreshFetched ls).storage)
        second).fetches = [call1, call2] ∧
      call1.url = API_BASE ++ url ∧ call2.url = call1.url ∧
      call2.method = call1.method ∧ call1.method = options.method ∧
      call2.body = call1.body ∧ call1.body = options.body ∧
      call2.headers.lookup "Authorization" = some ("Bearer " ++ jsToString data.access_token) ∧
      (∀ a, data.access_token = .str a →
        call2.headers.lookup "Authorization" = some ("Bearer " ++ a)) := by
  have hget : AuthService.getToken (AuthService.refreshToken refreshFetched ls).storage
      = some (jsToString data.access_token) := by
    rw [refreshToken_ok refreshFetched ls data hrun, AuthService.getToken,
      getItem_setItem_ne _ _ _ _ refreshKey_ne_tokenKey.symm, getItem_setItem_self]
  refine ⟨hget, ?_⟩
  rw [hget]
  have hhead : ∀ h : Headers,
      (assignHeader h "Authorization" ("Bearer " ++ tokenText (some (jsToString data.access_token)))).lookup
        "Authorization" = some ("Bearer " ++ jsToString data.access_token) :=
    fun h => lookup_assignHeader h _ _
  cases second with
  | error e =>
    refine ⟨{ url := API_BASE ++ url, method := options.method, body := options.body
              headers := configHeaders token options },
      { url := API_BASE ++ url, method := options.method, body := options.body
        headers := assignHeader (configHeaders token options) "Authorization"
          ("Bearer " ++ tokenText (some (jsToString data.access_token))) },
      by simp only [ApiService.request, hw, if_true], rfl, rfl, rfl, rfl, rfl, rfl,
      hhead _, ?_⟩
    intro a ha
    rw [hhead, ha]
    rfl
  | ok retried =>
    refine ⟨{ url := API_BASE ++ url, method := options.method, body := options.body
              headers := configHeaders token options },
      { url := API_BASE ++ url, method := options.method, body := options.body
        headers := assignHeader (configHeaders token options) "Authorization"
          ("Bearer " ++ tokenText (some (jsToString data.access_token))) },
      by simp only [ApiService.request, hw, if_true], rfl, rfl, rfl, rfl, rfl, rfl,
      hhead _, ?_⟩
    intro a ha
    rw [hhead, ha]
    rfl

/-- Witness for claim C11: a `PUT` answered 401 with token "abc" stored; the
refresh endpoint answers with access token "tok-2", and the retry carries it. -/
theorem retry_carries_new_token_witness :
    AuthService.getToken (AuthService.refreshToken (.ok refreshedResponse) signedInStore).storage
      = some "tok-2" :=
  (retry_carries_new_token (.ok refreshedResponse) signedInStore
    { emptyBody with access_token := .str "tok-2", refresh_token := .str "ref-2" }
    (some "abc") false "/assets/a1" putOptions unauthorizedResponse (.ok noContentResponse)
    rfl (by decide)).1

theorem request_result (token : Option String) (isRefreshing : Bool) (url : String)
    (options : RequestOptions) (first : Except String Response) (refreshed : Bool)
    (newToken : Option String) (second : Except String Response) :
    (ApiService.request token isRefreshing url options first refreshed newToken second).result
      = match first with
        | .error e => .error e
        | .ok response =>
          if wantsRefresh response token && refreshed then
            match second with
            | .error e => .error e
            | .ok retried => settle retried
          else settle response := by
  cases first with
  | error e => rfl
  | ok response =>
    cases hw : wantsRefresh response token <;> cases refreshed <;> cases second <;>
      simp [ApiService.request, hw]

theorem settle_error_iff (r : Response) :
    (∃ e, settle r = .error e) ↔ (r.ok = false ∨ ∃ e, r.json = .error e) := by
  unfold settle
  cases hok : r.ok
  · simp only [Bool.not_false, if_true, true_or, iff_true]
    split <;> exact ⟨_, rfl⟩
  · simp

/-- Claim C19, as stated, fails: no fetch rejects and the final response is ok
(204 with an empty body), yet `request` rejects, with the parse error of
`response.json()`. -/
theorem request_rejects_on_ok_response :
    noContentResponse.ok = true ∧
    ApiService.finalResponse (some "abc") (.ok noContentResponse) false
        (.ok noContentResponse) = some noContentResponse ∧
    (ApiService.request (some "abc") false "/assets/a1" putOptions (.ok noContentResponse)
        false none (.ok noContentResponse)).result = .error "Unexpected end of JSON input" :=
  ⟨rfl, rfl, rfl⟩

/-- Claim C19, amended: `request` rejects exactly when a fetch rejects, or the
final response is not ok, or the final response is ok and its body is not
valid JSON. For a final response that is not ok whose body is a JSON value
other than `null`, the error message is the string form of the body's `detail`
if truthy, else of its `message` if truthy, else "API Error: " followed by
`statusText`; a body that is not valid JSON counts as the empty object; for a
body that is `null` the rejection is the `TypeError` raised by reading
`errorData.detail`. -/
theorem request_rejects_iff (token : Option String) (isRefreshing : Bool) (url : String)
    (options : RequestOptions) (first : Except String Response) (refreshed : Bool)
    (newToken : Option String) (second : Except String Response) :
    ((∃ e, (ApiService.request token isRefreshing url options first refreshed newToken
          second).result = .error e) ↔
      (ApiService.finalResponse token first refreshed second = none ∨
        ∃ r, ApiService.finalResponse token first refreshed second = some r ∧
          (r.ok = false ∨ ∃ e, r.json = .error e))) ∧
    (ApiService.finalResponse token first refreshed second = none ↔
      ((∃ e, first = .error e) ∨
        ∃ response e, first = .ok response ∧ wantsRefresh response token = true ∧
          refreshed = true ∧ second = .error e)) ∧
    (∀ r, ApiService.finalResponse token first refreshed second = some r → r.ok = false →
      (∀ body, (r.json = .ok (some body) ∨ ((∃ e, r.json = .error e) ∧ body = emptyBody)) →
        (ApiService.request token isRefreshing url options first refreshed newToken
          second).result
          = .error (if body.detail.truthy then jsToString body.detail
                    else if body.message.truthy then jsToString body.message
                    else "API Error: " ++ r.statusText)) ∧
      (r.json = .ok none →
        (ApiService.request token isRefreshing url options first refreshed newToken
          second).result = .error (nullReadMessage "detail"))) := by
  rw [request_result]
  refine ⟨?_, ?_, ?_⟩
  · cases first with
    | error e => simp [ApiService.finalResponse]
    | ok response =>
      cases hw : wantsRefresh response token && refreshed
      · simp only [ApiService.finalResponse, hw, Bool.false_eq_true, if_false]
        rw [settle_error_iff]
        simp
      · cases second with
        | error e => simp [ApiService.finalResponse, hw]
        | ok retried =>
          simp only [ApiService.finalResponse, hw, if_true]
          rw [settle_error_iff]
          simp
  · cases first with
    | error e => simp [ApiService.finalResponse]
    | ok response =>
      cases hw : wantsRefresh response token <;> cases refreshed <;> cases second <;>
        simp [ApiService.finalResponse, hw]
  · intro r hr hok
    have hrule : ∀ body : JsonBody, errorMessage body r.statusText
        = (if body.detail.truthy then jsToString body.detail
           else if body.message.truthy then jsToString body.message
           else "API Error: " ++ r.statusText) := by
      intro body
      unfold errorMessage jsOr
      cases hd : body.detail.truthy <;> cases hm : body.message.truthy <;>
        simp [jsToString]
    have hsettle : (∀ body, (r.json = .ok (some body) ∨
          ((∃ e, r.json = .error e) ∧ body = emptyBody)) →
        settle r = .error (if body.detail.truthy then jsToString body.detail
                  else if body.message.truthy then jsToString body.message
                  else "API Error: " ++ r.statusText)) ∧
        (r.json = .ok none → settle r = .error (nullReadMessage "detail")) := by
      constructor
      · intro body hbody
        rw [← hrule]
        unfold settle
        simp only [hok, Bool.not_false, if_true]
        rcases hbody with h | ⟨⟨e, h⟩, hb⟩
        · rw [h]
        · rw [h, hb]
      · intro h
        unfold settle
        simp only [hok, Bool.not_false, if_true]
        rw [h]
    cases first with
    | error e => simp [ApiService.finalResponse] at hr
    | ok response =>
      cases hw : wantsRefresh response token && refreshed
      · simp only [ApiService.finalResponse, hw, Bool.false_eq_true, if_false,
          Option.some.injEq] at hr
        subst hr
        simp only [hw, Bool.false_eq_true, if_false]
        exact hsettle
      · cases second with
        | error e => simp [ApiService.finalResponse, hw] at hr
        | ok retried =>
          simp only [ApiService.finalResponse, hw, if_true, Option.some.injEq] at hr
          subst hr
          simp only [hw, if_true]
          exact hsettle

/-- Claim C17, as stated, fails: with a non-empty chain and a verify result
that is `null`, or an object without `is_valid`, AuditTrail shows the
"TAMPERING DETECTED" heading. -/
theorem missing_verdict_shown_as_tampering :
    (AuditTrail unverifiedState).showsTampering = true ∧
    (AuditTrail { unverifiedState with
        verification := some { validVerdict with is_valid := .undefined } }).showsTampering
      = true := by
  decide

/-- Claim C17, amended: AuditTrail shows the "TAMPERING DETECTED" heading
exactly when it is in its main view (not loading, no error, `auditData`
present with `total_changes` other than 0) and `verification?.is_valid` is not
truthy; a verify result that is `null` or lacks `is_valid` is therefore shown
as tampering. -/
theorem tampering_heading_iff_not_truthy (s : AuditChainState) :
    ((AuditTrail s).showsTampering = true ↔
      (s.loading = false ∧ strTruthy s.error = false ∧
        (∃ d, s.auditData = some d ∧ d.total_changes ≠ .num 0) ∧
        (isValidOf s.verification).truthy = false)) ∧
    (isValidOf none).truthy = false ∧
    (∀ v : Verification, v.is_valid = .undefined → (isValidOf (some v)).truthy = false) := by
  obtain ⟨ad, v, l, e⟩ := s
  refine ⟨?_, rfl, fun w hw => by simp [isValidOf, hw, JsVal.truthy]⟩
  cases l <;> cases he : strTruthy e <;> cases ad with
  | none => simp [AuditTrail, View.showsTampering, he]
  | some d =>
    by_cases hd : d.total_changes = .num 0
    · simp [AuditTrail, View.showsTampering, he, hd]
    · cases hv : (isValidOf v).truthy <;>
        simp [AuditTrail, View.showsTampering, he, hd, hv] <;>
        exact verifiedHeading_ne_tamperingHeading

/-! ## `AuthProvider.checkAuthStatus` -/

/-- Claim C18 at a failing input: a token is stored, a user is signed in,
`/verify` answers 401 and so does `/logout`. When `checkAuthStatus` finishes
the token is removed and `isLoading` is false, but `user` still holds the
user and `isAuthenticated` is still true, and the promise rejects. -/
theorem checkAuthStatus_keeps_user_when_logout_rejects :
    AuthService.getToken signedInStore = some "abc" ∧
    AuthService.verifyToken (.ok unauthorizedResponse) = .error "Invalid refresh token" ∧
    AuthService.getToken (checkAuthStatus (.ok unauthorizedResponse) (.ok unauthorizedResponse)
        signedInStore signedInState).storage = none ∧
    (checkAuthStatus (.ok unauthorizedResponse) (.ok unauthorizedResponse)
        signedInStore signedInState).state
      = { user := some aliceData, isLoading := false, isAuthenticated := true } ∧
    (checkAuthStatus (.ok unauthorizedResponse) (.ok unauthorizedResponse)
        signedInStore signedInState).result = .error "Invalid refresh token" :=
  ⟨by decide, rfl, by decide, by decide, rfl⟩

/-- What `checkAuthStatus` does guarantee when a token is stored and
`verifyToken` fails: the token is removed and `isLoading` is false; `user` is
null and `isAuthenticated` false when the `/logout` request succeeds, and both
keep their earlier values when it fails. -/
theorem checkAuthStatus_after_failed_verify (verifyFetched logoutFetched : Except String Response)
    (ls : LocalStorage) (s : AuthState) (e : String)
    (htoken : strTruthy (AuthService.getToken ls) = true)
    (hverify : AuthService.verifyToken verifyFetched = .error e) :
    AuthService.getToken (checkAuthStatus verifyFetched logoutFetched ls s).storage = none ∧
    (checkAuthStatus verifyFetched logoutFetched ls s).state.isLoading = false ∧
    ((∃ d, AuthService.request logoutFetched = .ok d) →
      (checkAuthStatus verifyFetched logoutFetched ls s).state
        = { user := none, isLoading := false, isAuthenticated := false }) ∧
    ((∃ e2, AuthService.request logoutFetched = .error e2) →
      (checkAuthStatus verifyFetched logoutFetched ls s).state = { s with isLoading := false }) := by
  have hclear := (logout_clears_entries logoutFetched ls).1
  unfold checkAuthStatus
  simp only [htoken, if_true, hverify]
  unfold AuthService.logout at hclear ⊢
  cases hreq : AuthService.request logoutFetched with
  | error e2 =>
    simp only [hreq] at hclear
    refine ⟨hclear, rfl, ?_, ?_⟩
    · rintro ⟨d, hd⟩
      cases hd
    · intro _
      rfl
  | ok d =>
    simp only [hreq] at hclear
    refine ⟨hclear, rfl, ?_, ?_⟩
    · intro _
      rfl
    · rintro ⟨e2, he2⟩
      cases he2

/-! ## `EditAssetModal.handleSubmit` -/

/-- Claim C12 at a failing input: the form pre-filled from an asset created
by `AddAssetModal` with no cost, submitted without any edit, passes an
`updates` object with the keys `cost` and `notes`. -/
theorem unedited_form_sends_fields (costIsNaN : JsVal → Bool) (parseFloat : JsVal → JsVal) :
    EditAssetModal.handleSubmit costIsNaN parseFloat (prefill addedAsset) addedAsset
      = some (.str "a1", [("cost", .str ""), ("notes", .str "")]) := by
  have hv : EditAssetModal.validate costIsNaN (prefill addedAsset) = true := by
    have h1 : getProp (prefill addedAsset) "cost" = .str "" := by decide
    have h2 : trimmedTruthy (getProp (prefill addedAsset) "name") = true := by decide
    have h3 : trimmedTruthy (getProp (prefill addedAsset) "type") = true := by decide
    simp [EditAssetModal.validate, h1, h2, h3, JsVal.truthy]
  have hc : changedFields (prefill addedAsset) addedAsset
      = [("cost", .str ""), ("notes", .str "")] := by decide
  simp only [EditAssetModal.handleSubmit, hv, hc]
  rfl

/-! ## `RegisterForm.validateForm` -/

/-- Claim C13: `validateForm` accepts a form exactly when name, email,
password and confirmPassword are non-empty, the email matches
`/\S+@\S+\.\S+/`, the password has at least 6 characters (UTF-16 code units,
as `length` counts them) and password equals confirmPassword; `handleSubmit`
calls `register` exactly for the accepted forms, with the fields of the form. -/
theorem validateForm_accepts_iff (f : RegisterFormData) :
    (RegisterForm.validateForm f = true ↔
      (f.name ≠ "" ∧ f.email ≠ "" ∧ f.password ≠ "" ∧ f.confirmPassword ≠ "" ∧
        emailPattern.test f.email = true ∧ 6 ≤ jsLength f.password ∧
        f.password = f.confirmPassword)) ∧
    ((∃ p, RegisterForm.handleSubmit f = some p) ↔ RegisterForm.validateForm f = true) ∧
    (∀ p, RegisterForm.handleSubmit f = some p →
      p = { name := f.name, email := f.email, password := f.password
            department := f.department, role := f.role }) := by
  refine ⟨?_, ?_, ?_⟩
  · unfold RegisterForm.validateForm RegisterForm.newErrors
    rw [List.isEmpty_iff]
    by_cases h1 : f.name = "" <;> by_cases h2 : f.email = "" <;>
      by_cases h3 : f.password = "" <;> by_cases h4 : f.confirmPassword = "" <;>
      by_cases h5 : emailPattern.test f.email = true <;>
      by_cases h6 : jsLength f.password < 6 <;>
      by_cases h7 : f.password = f.confirmPassword <;>
      simp [h1, h2, h3, h4, h5, h6, h7]
  · unfold RegisterForm.handleSubmit
    cases RegisterForm.validateForm f <;> simp
  · intro p hp
    unfold RegisterForm.handleSubmit at hp
    cases hv : RegisterForm.validateForm f
    · simp [hv] at hp
    · simp only [hv, Bool.not_true, Bool.false_eq_true, if_false, Option.some.injEq] at hp
      exact hp.symm

/-! ## The recent changes widget -/

theorem getRecent_length_le (store : Store) (limit : Nat) :
    (store.getRecent limit).length ≤ limit := by
  simp [Store.getRecent, List.length_take]

theorem getRecent_sorted (store : Store) (limit : Nat) :
    (store.getRecent limit).Pairwise recentFirst := by
  unfold Store.getRecent
  exact (List.sorted_insertionSort recentFirst store.records).sublist (List.take_sublist _ _)

/-- Claim C14: the widget requests the recent changes with limit 10, and for
an answer computed by `getRecent` of the store (modelled from the spec) the
entries it renders are those of the answer, at most 10 and with timestamps
that never increase down the list. -/
theorem recent_changes_bounded_and_ordered (assetName : String → String) (store : Store)
    (s : RecentAuditState) :
    (fetchRecentChanges (.ok (some (recentChangesResponse assetName store requestedLimit)))
        s).requested = "/audit/recent?limit=10" ∧
    (RecentAuditWidget (fetchRecentChanges
        (.ok (some (recentChangesResponse assetName store requestedLimit))) s).state).entries
      = recentChangesResponse assetName store requestedLimit ∧
    (RecentAuditWidget (fetchRecentChanges
        (.ok (some (recentChangesResponse assetName store requestedLimit))) s).state).entries.length
      ≤ 10 ∧
    (RecentAuditWidget (fetchRecentChanges
        (.ok (some (recentChangesResponse assetName store requestedLimit)))
        s).state).entries.Pairwise (fun a b => b.timestamp ≤ a.timestamp) := by
  have hentries : (RecentAuditWidget (fetchRecentChanges
      (.ok (some (recentChangesResponse assetName store requestedLimit))) s).state).entries
      = recentChangesResponse assetName store requestedLimit := by
    simp only [fetchRecentChanges, RecentAuditWidget, Option.getD_some, Bool.false_eq_true,
      if_false]
    split
    · rename_i h
      simp only [WidgetView.entries]
      exact (List.length_eq_zero.mp h).symm
    · rfl
  have hpath : getRecentAuditsPath requestedLimit = "/audit/recent?limit=10" := by decide
  refine ⟨hpath, hentries, ?_, ?_⟩
  · rw [hentries]
    simp only [recentChangesResponse, List.length_map]
    exact getRecent_length_le store requestedLimit
  · rw [hentries]
    simp only [recentChangesResponse]
    rw [List.pairwise_map]
    exact getRecent_sorted store requestedLimit

/-! ## The change ledger (modelled from the specification) -/

theorem verifyFrom_of_chainOK (S : HashScheme) (total : Nat) :
    ∀ (l : List LedgerRecord) (i : Nat) (e : String), ChainOK S e l →
      verifyFrom S total i e l
        = { isValid := true, totalRecords := total, verifiedRecords := total
            brokenAtIndex := none, errorMessage := none } := by
  intro l
  induction l with
  | nil => intro i e _; rfl
  | cons r rest ih =>
    intro i e h
    obtain ⟨⟨h1, h2⟩, h3⟩ := h
    simp only [verifyFrom, h1, h2, ne_eq, not_true_eq_false, if_false]
    exact ih (i + 1) r.currentHash h3

theorem verifyFrom_bad (S : HashScheme) (total i : Nat) (e : String) (r : LedgerRecord)
    (rest : List LedgerRecord) (hbad : ¬ linkOK S e r) :
    ∃ reason, verifyFrom S total i e (r :: rest) = brokenAt total i reason := by
  by_cases h1 : S.digest r.hashInput = r.currentHash
  · have h2 : r.previousHash ≠ e := fun h => hbad ⟨h1, h⟩
    exact ⟨if i = 0 then "genesis mismatch" else "broken link",
      by simp only [verifyFrom, h1, h2, ne_eq, not_true_eq_false, not_false_eq_true,
        if_false, if_true]⟩
  · exact ⟨"content hash mismatch",
      by simp only [verifyFrom, h1, ne_eq, not_false_eq_true, if_true]⟩

theorem chainOK_of_valid (S : HashScheme) (total : Nat) :
    ∀ (l : List LedgerRecord) (i : Nat) (e : String),
      (verifyFrom S total i e l).isValid = true → ChainOK S e l := by
  intro l
  induction l with
  | nil => intro i e _; trivial
  | cons r rest ih =>
    intro i e h
    by_cases hok : linkOK S e r
    · refine ⟨hok, ih (i + 1) r.currentHash ?_⟩
      simpa only [verifyFrom, hok.1, hok.2, ne_eq, not_true_eq_false, if_false] using h
    · obtain ⟨reason, hr⟩ := verifyFrom_bad S total i e r rest hok
      rw [hr] at h
      simp [brokenAt] at h

theorem chainOK_append (S : HashScheme) :
    ∀ (l1 l2 : List LedgerRecord) (e : String),
      ChainOK S e (l1 ++ l2) ↔ ChainOK S e l1 ∧ ChainOK S (tipHash e l1) l2 := by
  intro l1
  induction l1 with
  | nil => intro l2 e; simp [ChainOK, tipHash]
  | cons r rest ih =>
    intro l2 e
    rw [List.cons_append]
    simp only [ChainOK, tipHash, ih, and_assoc]

theorem verifyFrom_append (S : HashScheme) (total : Nat) :
    ∀ (l1 l2 : List LedgerRecord) (i : Nat) (e : String), ChainOK S e l1 →
      verifyFrom S total i e (l1 ++ l2)
        = verifyFrom S total (i + l1.length) (tipHash e l1) l2 := by
  intro l1
  induction l1 with
  | nil => intro l2 i e _; rfl
  | cons r rest ih =>
    intro l2 i e h
    obtain ⟨⟨h1, h2⟩, h3⟩ := h
    rw [List.cons_append]
    simp only [verifyFrom, h1, h2, ne_eq, not_true_eq_false, if_false, tipHash,
      List.length_cons]
    rw [ih l2 (i + 1) r.currentHash h3]
    congr 1
    omega

theorem mutation_changes_input (m : Mutation) (r : LedgerRecord) (hchg : m.apply r ≠ r) :
    ((m.apply r).hashInput = r.hashInput ∧ (m.apply r).currentHash ≠ r.currentHash) ∨
    ((m.apply r).hashInput ≠ r.hashInput ∧ (m.apply r).currentHash = r.currentHash) := by
  obtain ⟨a1, a2, a3, a4, a5, a6, a7, a8, a9, a10, a11⟩ := r
  cases m <;> simp_all [Mutation.apply, LedgerRecord.hashInput]

theorem mutation_keeps_place (m : Mutation) (r : LedgerRecord) (hm : m.keepsPlace = true) :
    (m.apply r).entityId = r.entityId ∧ (m.apply r).chainIndex = r.chainIndex := by
  cases m <;> simp_all [Mutation.apply, Mutation.keepsPlace]

theorem tamper_breaks_list (S : HashScheme) (before after : List LedgerRecord)
    (r : LedgerRecord) (m : Mutation)
    (hchain : ChainOK S S.genesis (before ++ r :: after))
    (hchg : m.apply r ≠ r)
    (hcoll : (m.apply r).hashInput ≠ r.hashInput →
      S.digest (m.apply r).hashInput ≠ S.digest r.hashInput) :
    ∃ reason, verify S (before ++ m.apply r :: after)
      = { isValid := false, totalRecords := (before ++ r :: after).length
          verifiedRecords := before.length, brokenAtIndex := some before.length
          errorMessage := some reason } := by
  rw [chainOK_append] at hchain
  obtain ⟨hbefore, ⟨hdig, hprev⟩, _⟩ := hchain
  have hbad : ¬ linkOK S (tipHash S.genesis before) (m.apply r) := by
    rintro ⟨h1, _⟩
    rcases mutation_changes_input m r hchg with ⟨hin, hcur⟩ | ⟨hin, hcur⟩
    · rw [hin, hdig] at h1
      exact hcur h1.symm
    · rw [hcur, ← hdig] at h1
      exact hcoll hin h1
  obtain ⟨reason, hr⟩ := verifyFrom_bad S (before ++ m.apply r :: after).length
    (0 + before.length) (tipHash S.genesis before) (m.apply r) after hbad
  refine ⟨reason, ?_⟩
  rw [verify, verifyFrom_append S _ before _ 0 S.genesis hbefore, hr]
  simp [brokenAt]

theorem tipHash_concat (t : LedgerRecord) :
    ∀ (l : List LedgerRecord) (e : String), tipHash e (l ++ [t]) = t.currentHash := by
  intro l
  induction l with
  | nil => intro e; rfl
  | cons r rest ih =>
    intro e
    rw [List.cons_append]
    simp only [tipHash]
    exact ih r.currentHash

theorem getChain_eq_ofEntity (S : HashScheme) (store : Store) (hs : StoreOK S store)
    (e : String) : store.getChain e = store.ofEntity e := by
  unfold Store.getChain
  apply List.Sorted.insertionSort_eq
  have h := (hs e).1
  have hsorted : ((store.ofEntity e).map (fun x => x.chainIndex)).Pairwise (· ≤ ·) := by
    rw [h]
    exact List.pairwise_le_range _
  rw [List.pairwise_map] at hsorted
  exact hsorted

theorem tail_of_indexed (c : List LedgerRecord) (g : String)
    (hidx : c.map (fun x => x.chainIndex) = List.range c.length) :
    (c.getLast? = none ∧ c = []) ∨
    ∃ t, c.getLast? = some t ∧ t.chainIndex + 1 = c.length ∧ tipHash g c = t.currentHash := by
  rcases List.eq_nil_or_concat c with h | ⟨init, t, h⟩
  · left
    subst h
    exact ⟨rfl, rfl⟩
  · right
    rw [List.concat_eq_append] at h
    subst h
    refine ⟨t, List.getLast?_concat init, ?_, tipHash_concat t init g⟩
    simp only [List.map_append, List.map_cons, List.map_nil, List.length_append,
      List.length_cons, List.length_nil, Nat.zero_add, List.range_succ] at hidx
    have hlen : (init.map (fun x => x.chainIndex)).length = (List.range init.length).length := by
      simp
    have := (List.append_inj hidx hlen).2
    simp only [List.cons.injEq, and_true] at this
    simp [this]

theorem build_after_tail (S : HashScheme) (ev : ChangeEvent) (c : List LedgerRecord)
    (hidx : c.map (fun x => x.chainIndex) = List.range c.length) :
    (build S ev c.getLast?).entityId = ev.entityId ∧
    (build S ev c.getLast?).chainIndex = c.length ∧
    linkOK S (tipHash S.genesis c) (build S ev c.getLast?) := by
  rcases tail_of_indexed c S.genesis hidx with ⟨h1, h2⟩ | ⟨t, h1, h2, h3⟩
  · subst h2
    exact ⟨rfl, rfl, rfl, rfl⟩
  · rw [h1, h3]
    exact ⟨rfl, h2, rfl, rfl⟩

theorem ofEntity_append (store : Store) (r : LedgerRecord) (e : String) :
    Store.ofEntity { records := store.records ++ [r] } e
      = store.ofEntity e ++ (if r.entityId = e then [r] else []) := by
  unfold Store.ofEntity
  by_cases h : r.entityId = e <;> simp [List.filter_append, List.filter_cons, h]

theorem recordChange_ok (S : HashScheme) (store : Store) (ev : ChangeEvent)
    (hs : StoreOK S store) :
    ∃ next, recordChange S store ev = .ok next ∧ StoreOK S next ∧
      ∀ e, (next.ofEntity e).length
        = (store.ofEntity e).length + (if ev.entityId = e then 1 else 0) := by
  have hidx := (hs ev.entityId).1
  have hchain := (hs ev.entityId).2
  have htail : store.getTail ev.entityId = (store.ofEntity ev.entityId).getLast? := by
    rw [Store.getTail, getChain_eq_ofEntity S store hs]
  obtain ⟨hent, hpos, hlink⟩ := build_after_tail S ev (store.ofEntity ev.entityId) hidx
  have hfresh : store.records.any (fun x =>
      x.entityId == (build S ev (store.ofEntity ev.entityId).getLast?).entityId &&
      x.chainIndex == (build S ev (store.ofEntity ev.entityId).getLast?).chainIndex) = false := by
    rw [hent, hpos]
    rw [List.any_eq_false]
    intro x hx hboth
    simp only [Bool.and_eq_true, beq_iff_eq] at hboth
    have hmem : x ∈ store.ofEntity ev.entityId := by
      simp [Store.ofEntity, hx, hboth.1]
    have hin : x.chainIndex ∈ (store.ofEntity ev.entityId).map (fun y => y.chainIndex) :=
      List.mem_map_of_mem _ hmem
    rw [hidx, List.mem_range] at hin
    omega
  refine ⟨{ records := store.records ++ [build S ev (store.ofEntity ev.entityId).getLast?] },
    ?_, ?_, ?_⟩
  · simp only [recordChange, htail, Store.append, hfresh, Bool.false_eq_true, if_false]
  · intro e
    rw [ofEntity_append, hent]
    by_cases he : ev.entityId = e
    · subst he
      simp only [if_true, List.map_append, List.map_cons, List.map_nil, List.length_append,
        List.length_cons, List.length_nil, Nat.zero_add, List.range_succ, hidx, hpos]
      refine ⟨trivial, ?_⟩
      rw [chainOK_append]
      exact ⟨hchain, hlink, trivial⟩
    · simp only [he, if_false, List.append_nil]
      exact hs e
  · intro e
    rw [ofEntity_append, hent]
    by_cases he : ev.entityId = e <;> simp [he]

theorem replay_ok (S : HashScheme) :
    ∀ (evs : List ChangeEvent) (store : Store), StoreOK S store →
      ∃ final, replay S store evs = .ok final ∧ StoreOK S final ∧
        ∀ e, (final.ofEntity e).length
          = (store.ofEntity e).length + (evs.filter (fun ev => ev.entityId == e)).length := by
  intro evs
  induction evs with
  | nil =>
    intro store hs
    exact ⟨store, rfl, hs, fun e => by simp⟩
  | cons ev evs ih =>
    intro store hs
    obtain ⟨next, hnext, hok, hlen⟩ := recordChange_ok S store ev hs
    obtain ⟨final, hfinal, hfok, hflen⟩ := ih next hok
    refine ⟨final, ?_, hfok, ?_⟩
    · simp only [replay, hnext]
      exact hfinal
    · intro e
      rw [hflen e, hlen e]
      by_cases he : ev.entityId = e
      · simp only [List.filter_cons, he, beq_self_eq_true, if_true, List.length_cons]
        omega
      · simp [List.filter_cons, he]

theorem storeOK_empty (S : HashScheme) : StoreOK S Store.empty := by
  intro e
  exact ⟨rfl, trivial⟩

/-- Claim C15: recording any sequence of change events through the builder
and the store, starting from the empty store, succeeds, and for every entity
the chain the store returns has one record per event of that entity and
verifies with `isValid = true` and `totalRecords = verifiedRecords` = the
length of the chain (in particular every non-empty chain does). -/
theorem built_chain_verifies (S : HashScheme) (evs : List ChangeEvent) :
    ∃ store, replay S Store.empty evs = .ok store ∧
      ∀ e, (store.getChain e).length = (evs.filter (fun ev => ev.entityId == e)).length ∧
        verify S (store.getChain e)
          = { isValid := true, totalRecords := (store.getChain e).length
              verifiedRecords := (store.getChain e).length, brokenAtIndex := none
              errorMessage := none } := by
  obtain ⟨store, hrun, hok, hlen⟩ := replay_ok S evs Store.empty (storeOK_empty S)
  refine ⟨store, hrun, fun e => ⟨?_, ?_⟩⟩
  · rw [getChain_eq_ofEntity S store hok, hlen e]
    simp [Store.ofEntity, Store.empty]
  · rw [getChain_eq_ofEntity S store hok]
    exact verifyFrom_of_chainOK S _ _ 0 S.genesis (hok e).2

theorem getChain_of_indexed (store : Store) (e : String)
    (hidx : (store.ofEntity e).map (fun x => x.chainIndex)
      = List.range (store.ofEntity e).length) :
    store.getChain e = store.ofEntity e := by
  unfold Store.getChain
  apply List.Sorted.insertionSort_eq
  have hsorted : ((store.ofEntity e).map (fun x => x.chainIndex)).Pairwise (· ≤ ·) := by
    rw [hidx]
    exact List.pairwise_le_range _
  rw [List.pairwise_map] at hsorted
  exact hsorted

theorem ofEntity_split (pre post : List LedgerRecord) (x : LedgerRecord) (e : String)
    (hx : x.entityId = e) :
    Store.ofEntity { records := pre ++ x :: post } e
      = Store.ofEntity { records := pre } e ++ x :: Store.ofEntity { records := post } e := by
  simp [Store.ofEntity, List.filter_append, List.filter_cons, hx]

theorem index_of_position (before after : List LedgerRecord) (r : LedgerRecord)
    (hidx : (before ++ r :: after).map (fun x => x.chainIndex)
      = List.range (before ++ r :: after).length) :
    r.chainIndex = before.length := by
  have h := congrArg (fun l => l[before.length]?) hidx
  simp only [List.map_append, List.map_cons] at h
  rw [List.getElem?_append_right (by simp)] at h
  simp only [List.length_map, Nat.sub_self, List.getElem?_cons_zero, List.length_append,
    List.length_cons] at h
  rw [List.getElem?_range (by omega)] at h
  exact Option.some.inj h

/-- Claim C16, as stated, fails on the store of the specification, whatever
the digest covers: the chain of asset A-1 is stored through the append path;
after the `entityId` of record 1 is changed in storage, the chain read back
for A-1 has one record and verifies as valid; and after the `chainIndex` of
record 2 is changed to 0, the chain is read back in another order and breaks
at index 1, not 2. -/
theorem tamper_not_at_index :
    replay exampleScheme Store.empty [assignAlice, assignBob, assignCarol]
      = .ok { records := [aliceRecord, bobRecord, carolRecord] } ∧
    verify exampleScheme (Store.getChain
        { records := [aliceRecord, (Mutation.entityId "A-2").apply bobRecord] } "A-1")
      = { isValid := true, totalRecords := 1, verifiedRecords := 1, brokenAtIndex := none
          errorMessage := none } ∧
    (verify exampleScheme (Store.getChain
        { records := [aliceRecord, bobRecord, (Mutation.chainIndex 0).apply carolRecord] }
        "A-1")).brokenAtIndex = some 1 :=
  ⟨rfl, by decide, by decide⟩

/-- Claim C16, amended: take a store filled through the append path and a
record `r` in it, which sits at position `r.chainIndex` of its chain. Changing
in storage one field of `r` other than `entityId` and `chainIndex` to another
value, without recomputing hashes, makes verification of the chain read back
for that entity report `isValid = false` with `brokenAtIndex` and
`verifiedRecords` equal to that position and `totalRecords` the length of the
chain, provided the digest does not give the changed content the hash of the
original content. -/
theorem tamper_detected_at_index (S : HashScheme) (evs : List ChangeEvent)
    (pre post : List LedgerRecord) (r : LedgerRecord) (m : Mutation)
    (hrun : replay S Store.empty evs = .ok { records := pre ++ r :: post })
    (hm : m.keepsPlace = true) (hchg : m.apply r ≠ r)
    (hcoll : (m.apply r).hashInput ≠ r.hashInput →
      S.digest (m.apply r).hashInput ≠ S.digest r.hashInput) :
    (Store.getChain { records := pre ++ r :: post } r.entityId)[r.chainIndex]? = some r ∧
    ∃ reason, verify S (Store.getChain { records := pre ++ m.apply r :: post } r.entityId)
      = { isValid := false
          totalRecords := (Store.getChain { records := pre ++ r :: post } r.entityId).length
          verifiedRecords := r.chainIndex, brokenAtIndex := some r.chainIndex
          errorMessage := some reason } := by
  obtain ⟨final, hfinal, hok, _⟩ := replay_ok S evs Store.empty (storeOK_empty S)
  have hstore : final = { records := pre ++ r :: post } := by
    rw [hfinal] at hrun
    injection hrun
  subst hstore
  obtain ⟨hidx, hchain⟩ := hok r.entityId
  obtain ⟨hent, hpos⟩ := mutation_keeps_place m r hm
  have horig := ofEntity_split pre post r r.entityId rfl
  have htamp := ofEntity_split pre post (m.apply r) r.entityId hent
  rw [horig] at hidx hchain
  have hk := index_of_position _ _ r hidx
  have hidx2 : (Store.ofEntity { records := pre ++ m.apply r :: post } r.entityId).map
      (fun x => x.chainIndex)
      = List.range (Store.ofEntity { records := pre ++ m.apply r :: post } r.entityId).length := by
    rw [htamp]
    simpa [hpos] using hidx
  rw [getChain_of_indexed _ _ hidx2, htamp,
    getChain_of_indexed _ _ (by rw [horig]; exact hidx), horig, hk]
  refine ⟨?_, tamper_breaks_list S _ _ r m hchain hchg hcoll⟩
  rw [List.getElem?_append_right (Nat.le_refl _)]
  simp

/-- Witness for claim C16: in the scenario of section 8 the `newValue` of
record 1 is changed to mallory in storage; verification of the chain of A-1
breaks at index 1 with one record verified. -/
theorem tamper_detected_at_index_witness :
    ∃ reason, verify exampleScheme (Store.getChain
        { records := [aliceRecord] ++
            (Mutation.newValue (some "mallory@co.com")).apply bobRecord :: [] }
        bobRecord.entityId)
      = { isValid := false
          totalRecords := (Store.getChain { records := [aliceRecord] ++ bobRecord :: [] }
            bobRecord.entityId).length
          verifiedRecords := bobRecord.chainIndex, brokenAtIndex := some bobRecord.chainIndex
          errorMessage := some reason } :=
  (tamper_detected_at_index exampleScheme [assignAlice, assignBob] [aliceRecord] [] bobRecord
    (Mutation.newValue (some "mallory@co.com")) rfl rfl (by decide) (fun _ => by decide)).2

/-- A response that is not ok with the body `null`: `request` rejects with the
`TypeError` of reading `errorData.detail`, not with a message built from
`detail`, `message` or `statusText`. -/
theorem request_null_error_body :
    (ApiService.request (some "abc") false "/assets/a1" putOptions (.ok nullErrorResponse)
        false none (.ok nullErrorResponse)).result = .error (nullReadMessage "detail") ∧
    nullReadMessage "detail" ≠ "API Error: Internal Server Error" :=
  ⟨rfl, by decide⟩

/-- A login answered with the body `null`: reading `response.token` raises a
`TypeError`, `login` rejects and the storage is left as it was. -/
theorem login_null_response (fetched : Except String Response) (ls : LocalStorage)
    (hres : AuthService.request fetched = .ok none) :
    AuthService.login fetched ls = (ls, .error (nullReadMessage "token")) := by
  simp [AuthService.login, hres]

end Itam
